import Mathlib

/-!
# RenderContext (src/Render/RenderContext.js)

A shallow embedding of the `RenderContext` class: its settings record, the
getters derived from it, the cached-image slot and the destroy hooks.

Conventions of the embedding

* A JavaScript value stored in a settings record is a `JSVal`: `undefined`,
  `null`, a boolean, a number or a string. A number stored in a record is
  finite and given by the rational it denotes.
* Arithmetic is that of IEEE 754 doubles (`F64`): results are rounded to
  nearest, ties to even, and can be NaN, an infinity or the negative zero.
* An object is an association list from property names to values; reading a
  property that is not there yields `undefined`.
* Calls that can throw return `Except JSError _`.
* Callbacks act on an explicit world of type `W`: each is a total function
  `W → W`. A callback that throws, or that reaches back into the context it
  is registered on, is not represented.
* `Renderer.color`, `Color` and `Image` come from the host; the embedding
  keeps the arguments they are given. The identifier `m` of `destroy` is
  bound nowhere in the file.
-/

namespace BetterMap

/-! ## Values and objects -/

/-- A JavaScript value as it can appear in a settings record. -/
inductive JSVal where
  | undefined
  | null
  | bool (b : Bool)
  | num (q : ℚ)
  | str (s : String)
  deriving DecidableEq, Repr

/-- An object: its own properties, in insertion order. -/
abbrev JSObject := List (String × JSVal)

/-- Property read `o.k`: the stored value, or `undefined` when `o` has no
property `k`. -/
def JSObject.getProp (o : JSObject) (k : String) : JSVal :=
  match o.lookup k with
  | some v => v
  | none => JSVal.undefined

/-- The names of the own properties of an object. -/
def JSObject.keys (o : JSObject) : List String := o.map Prod.fst

/-- What a caller can hand to `setSettings`: a primitive value or an object. -/
inductive JSArg where
  | prim (v : JSVal)
  | obj (o : JSObject)
  deriving DecidableEq, Repr

/-- The errors the embedded code can raise. -/
inductive JSError where
  | typeError
  | referenceError
  deriving DecidableEq, Repr

/-- Property read on an argument that is not nullish. None of the settings
names is a property of the Boolean, Number or String wrappers, so on a
primitive the read yields `undefined`. -/
def JSArg.read (a : JSArg) (k : String) : JSVal :=
  match a with
  | JSArg.prim _ => JSVal.undefined
  | JSArg.obj o => o.getProp k

/-- A destructuring default `name = d`: the default is taken exactly when the
property read yields `undefined`. -/
def orDefault (v d : JSVal) : JSVal :=
  if v = JSVal.undefined then d else v

/-! ## Settings -/

/-- The fourteen names of the `ContextSettings` typedef, in declaration order. -/
def settingsKeys : List String :=
  ["mapStyle", "posX", "posY", "size", "headScale", "iconScale", "tickStyle",
   "puzzleNames", "headBorder", "playerNames", "currentRoomInfo",
   "scoreInfoUnderMap", "forcePaul", "devInfo"]

namespace RenderContext

/-- The body of `addMissing` once its argument is known to be destructurable:
fourteen reads with their defaults, then the object literal of the fourteen
bound names. -/
def addMissingFrom (a : JSArg) : JSObject :=
  let mapStyle := orDefault (a.read "mapStyle") (JSVal.str "legalmap")
  let posX := orDefault (a.read "posX") (JSVal.num 0)
  let posY := orDefault (a.read "posY") (JSVal.num 0)
  let size := orDefault (a.read "size") (JSVal.num 100)
  let headScale := orDefault (a.read "headScale") (JSVal.num 8)
  let iconScale := orDefault (a.read "iconScale") (JSVal.num 8)
  let tickStyle := orDefault (a.read "tickStyle") (JSVal.str "default")
  let puzzleNames := orDefault (a.read "puzzleNames") (JSVal.str "none")
  let headBorder := orDefault (a.read "headBorder") (JSVal.bool false)
  let playerNames := orDefault (a.read "playerNames") (JSVal.bool true)
  let currentRoomInfo := orDefault (a.read "currentRoomInfo") (JSVal.str "none")
  let scoreInfoUnderMap := orDefault (a.read "scoreInfoUnderMap") (JSVal.str "simplified")
  let forcePaul := orDefault (a.read "forcePaul") (JSVal.bool false)
  let devInfo := orDefault (a.read "devInfo") (JSVal.bool false)
  [("mapStyle", mapStyle),
   ("posX", posX),
   ("posY", posY),
   ("size", size),
   ("headScale", headScale),
   ("iconScale", iconScale),
   ("tickStyle", tickStyle),
   ("puzzleNames", puzzleNames),
   ("headBorder", headBorder),
   ("playerNames", playerNames),
   ("currentRoomInfo", currentRoomInfo),
   ("scoreInfoUnderMap", scoreInfoUnderMap),
   ("forcePaul", forcePaul),
   ("devInfo", devInfo)]

/-- The static method `addMissing`. Destructuring `undefined` or `null` throws
a TypeError; every other argument is read property by property. -/
def addMissing (a : JSArg) : Except JSError JSObject :=
  match a with
  | JSArg.prim JSVal.undefined => Except.error JSError.typeError
  | JSArg.prim JSVal.null => Except.error JSError.typeError
  | other => Except.ok (addMissingFrom other)


end RenderContext

/-! ## The context object -/

/-- The `image` field. The constructor stores `null`, `destroy` stores
`undefined`, and the external renderer stores an image whose `getTexture()`
is either nullish (`none`) or a texture, given by what releasing it does to
the world. -/
inductive ImageRef (W : Type) where
  | null
  | undefined
  | image (texture : Option (W → W))

/-- Whether the field holds an image (is not nullish). -/
def ImageRef.present {W : Type} : ImageRef W → Bool
  | ImageRef.image _ => true
  | _ => false

/-- The instance fields of a `RenderContext`. The fields that the class only
ever assigns from numeric literals are numbers. -/
structure RenderContext (W : Type) where
  settings : JSObject
  image : ImageRef W
  imageLastUpdate : ℚ
  paddingTop : ℚ
  paddingLeft : ℚ
  borderWidth : ℚ
  onDestroys : List (W → W)

namespace RenderContext

variable {W : Type}

/-- Method `setSettings`: the settings become `addMissing(settings)`. -/
def setSettings (ctx : RenderContext W) (settings : JSArg) :
    Except JSError (RenderContext W) :=
  match addMissing settings with
  | Except.error e => Except.error e
  | Except.ok s => Except.ok { ctx with settings := s }

/-- The constructor: `settings = {}`, then `setSettings(settings)`, then the
remaining fields. -/
def new (settings : JSArg) : Except JSError (RenderContext W) :=
  let this0 : RenderContext W :=
    { settings := [], image := ImageRef.null, imageLastUpdate := 0,
      paddingTop := 0, paddingLeft := 0, borderWidth := 2, onDestroys := [] }
  match setSettings this0 settings with
  | Except.error e => Except.error e
  | Except.ok this1 =>
    Except.ok { this1 with
      image := ImageRef.null, imageLastUpdate := 0,
      paddingTop := 0, paddingLeft := 0, borderWidth := 2, onDestroys := [] }

/-! ### Settings getters -/

def posX (ctx : RenderContext W) : JSVal := ctx.settings.getProp "posX"
def posY (ctx : RenderContext W) : JSVal := ctx.settings.getProp "posY"
def size (ctx : RenderContext W) : JSVal := ctx.settings.getProp "size"
def headScale (ctx : RenderContext W) : JSVal := ctx.settings.getProp "headScale"
def iconScale (ctx : RenderContext W) : JSVal := ctx.settings.getProp "iconScale"
def tickStyle (ctx : RenderContext W) : JSVal := ctx.settings.getProp "tickStyle"
def puzzleNames (ctx : RenderContext W) : JSVal := ctx.settings.getProp "puzzleNames"
def headBorder (ctx : RenderContext W) : JSVal := ctx.settings.getProp "headBorder"
def playerNames (ctx : RenderContext W) : JSVal := ctx.settings.getProp "playerNames"
def mapStyle (ctx : RenderContext W) : JSVal := ctx.settings.getProp "mapStyle"
def currentRoomInfo (ctx : RenderContext W) : JSVal := ctx.settings.getProp "currentRoomInfo"
def scoreInfoUnderMap (ctx : RenderContext W) : JSVal :=
  ctx.settings.getProp "scoreInfoUnderMap"
def forcePaul (ctx : RenderContext W) : JSVal := ctx.settings.getProp "forcePaul"
def devInfo (ctx : RenderContext W) : JSVal := ctx.settings.getProp "devInfo"

/-! ### Style tables -/

end RenderContext

/-- The object `roomHash`: room type names and their numbers. -/
def roomHash : List (String × Nat) :=
  [("SPAWN", 0), ("NORMAL", 1), ("PUZZLE", 2), ("MINIBOSS", 3), ("FAIRY", 4),
   ("BLOOD", 5), ("UNKNOWN", 6), ("TRAP", 7), ("BLACK", 8), ("NORMAL_CONNECTION", 9)]

def roomHash.SPAWN : Nat := 0
def roomHash.NORMAL : Nat := 1
def roomHash.PUZZLE : Nat := 2
def roomHash.MINIBOSS : Nat := 3
def roomHash.FAIRY : Nat := 4
def roomHash.BLOOD : Nat := 5
def roomHash.UNKNOWN : Nat := 6
def roomHash.TRAP : Nat := 7
def roomHash.BLACK : Nat := 8
def roomHash.NORMAL_CONNECTION : Nat := 9

/-- A color `new Color(Renderer.color(r, g, b, a))`, kept as the four
arguments given to the host. -/
structure Color where
  r : Nat
  g : Nat
  b : Nat
  a : Nat
  deriving DecidableEq, Repr

/-- A `Map` object: its entries, in insertion order. -/
structure JSMap (κ ν : Type) where
  entries : List (κ × ν)
  deriving DecidableEq, Repr

/-- The result of `new Map()`. -/
def JSMap.empty {κ ν : Type} : JSMap κ ν := ⟨[]⟩

/-- Insertion into a list of entries: overwrite the entry of the key in place
when there is one, otherwise append a new entry. -/
def JSMap.setEntry {κ ν : Type} [DecidableEq κ] (k : κ) (v : ν) : List (κ × ν) → List (κ × ν)
  | [] => [(k, v)]
  | (k1, v1) :: rest => if k1 = k then (k, v) :: rest else (k1, v1) :: JSMap.setEntry k v rest

/-- `Map.prototype.set`. -/
def JSMap.set {κ ν : Type} [DecidableEq κ] (m : JSMap κ ν) (k : κ) (v : ν) : JSMap κ ν :=
  ⟨JSMap.setEntry k v m.entries⟩

/-- `Map.prototype.get`: the value of the key, `none` standing for `undefined`. -/
def JSMap.get {κ ν : Type} [DecidableEq κ] (m : JSMap κ ν) (k : κ) : Option ν :=
  (m.entries.find? (fun e => decide (e.1 = k))).map Prod.snd

/-- The entries of the module constant `HypixelColorMap`. -/
def HypixelColorMap : JSMap Nat Color :=
  (JSMap.empty
    |>.set roomHash.SPAWN ⟨0, 124, 0, 255⟩
    |>.set roomHash.NORMAL ⟨114, 67, 27, 255⟩
    |>.set roomHash.NORMAL_CONNECTION ⟨114, 67, 27, 255⟩
    |>.set roomHash.PUZZLE ⟨178, 76, 216, 255⟩
    |>.set roomHash.MINIBOSS ⟨229, 229, 51, 255⟩
    |>.set roomHash.FAIRY ⟨242, 127, 165, 255⟩
    |>.set roomHash.BLOOD ⟨255, 0, 0, 255⟩
    |>.set roomHash.TRAP ⟨216, 127, 51, 255⟩
    |>.set roomHash.UNKNOWN ⟨65, 65, 65, 255⟩
    |>.set roomHash.BLACK ⟨0, 0, 0, 255⟩)

/-- The entries of the module constant `LegalMapColorMap`. -/
def LegalMapColorMap : JSMap Nat Color :=
  (JSMap.empty
    |>.set roomHash.SPAWN ⟨20, 133, 0, 255⟩
    |>.set roomHash.NORMAL ⟨107, 58, 17, 255⟩
    |>.set roomHash.NORMAL_CONNECTION ⟨92, 52, 14, 255⟩
    |>.set roomHash.PUZZLE ⟨117, 0, 133, 255⟩
    |>.set roomHash.MINIBOSS ⟨254, 223, 0, 255⟩
    |>.set roomHash.FAIRY ⟨224, 0, 255, 255⟩
    |>.set roomHash.BLOOD ⟨255, 0, 0, 255⟩
    |>.set roomHash.TRAP ⟨216, 127, 51, 255⟩
    |>.set roomHash.UNKNOWN ⟨65, 65, 65, 255⟩
    |>.set roomHash.BLACK ⟨0, 0, 0, 255⟩)

/-- A reference to one of the two color `Map` objects of the module. Two
references are equal exactly when they denote the same object. -/
inductive ColorMapRef where
  | HypixelColorMap
  | LegalMapColorMap
  deriving DecidableEq, Repr

/-- The object a reference denotes. -/
def ColorMapRef.deref : ColorMapRef → JSMap Nat Color
  | ColorMapRef.HypixelColorMap => BetterMap.HypixelColorMap
  | ColorMapRef.LegalMapColorMap => BetterMap.LegalMapColorMap

namespace RenderContext

variable {W : Type}

/-- Getter `colorMap`; `none` is the switch falling through (`undefined`). -/
def colorMap (ctx : RenderContext W) : Option ColorMapRef :=
  match ctx.mapStyle with
  | JSVal.str "legalmap" => some ColorMapRef.LegalMapColorMap
  | JSVal.str "hypixelmap" => some ColorMapRef.HypixelColorMap
  | JSVal.str "teniosmap" => some ColorMapRef.HypixelColorMap
  | _ => none

/-! ### Geometry -/

/-- Getter `roomGap`; `undefined` when no case matches. -/
def roomGap (ctx : RenderContext W) : JSVal :=
  match ctx.mapStyle with
  | JSVal.str "legalmap" => JSVal.num 8
  | JSVal.str "hypixelmap" => JSVal.num 6
  | JSVal.str "teniosmap" => JSVal.num 6
  | _ => JSVal.undefined

/-- Getter `roomSize`; `undefined` when no case matches. -/
def roomSize (ctx : RenderContext W) : JSVal :=
  match ctx.mapStyle with
  | JSVal.str "legalmap" => JSVal.num 24
  | JSVal.str "hypixelmap" => JSVal.num 24
  | JSVal.str "teniosmap" => JSVal.num 24
  | _ => JSVal.undefined

end RenderContext

/-- The number of an operand of `roomSize + roomGap`. The two getters return
an integer literal or `undefined`, and `undefined` is NaN (`none`); strings,
which the general conversion `toDouble` parses, never reach this function. -/
def geometryOperand : JSVal → Option ℚ
  | JSVal.num q => some q
  | JSVal.null => some 0
  | JSVal.bool true => some 1
  | JSVal.bool false => some 0
  | JSVal.undefined => none
  | JSVal.str _ => none

/-- The sum of two operands of `roomSize + roomGap`: NaN (`none`) as soon as
one operand is; the sum of two of the integer literals is exact. -/
def numAdd (a b : Option ℚ) : Option ℚ :=
  match a, b with
  | some x, some y => some (x + y)
  | _, _ => none

/-- The result of JavaScript arithmetic: an IEEE 754 double. A finite value
is given by the rational it denotes, `fin 0` being the positive zero. -/
inductive F64 where
  | nan
  | posInf
  | negInf
  | negZero
  | fin (q : ℚ)
  deriving DecidableEq, Repr

namespace F64


/-- The infinity of the given sign. -/
def infinity (neg : Bool) : F64 := if neg then negInf else posInf
/-- The zero of the given sign. -/
def zero (neg : Bool) : F64 := if neg then negZero else fin 0
/-- The finite value of magnitude `v` and the given sign. -/
def signed (neg : Bool) (v : ℚ) : F64 := if neg then fin (-v) else fin v

/-- The integer nearest to `x`, the even one of the two when `x` lies half way. -/
def roundHalfEven (x : ℚ) : ℤ :=
  let f : ℤ := ⌊x⌋
  if x - f < 1 / 2 then f
  else if 1 / 2 < x - f then f + 1
  else if f % 2 = 0 then f else f + 1

/-- Rounding of the exact magnitude `a` of a result to a double of the given
sign, to nearest, ties to even: 53 significant bits, exponents from -1022 (below
which the spacing stays `2 ^ -1074`) to 1023, infinity from `2 ^ 1024` on, a
signed zero when the magnitude rounds to nothing. -/
def roundMag (neg : Bool) (a : ℚ) : F64 :=
  if a = 0 then zero neg
  else
    let e : ℤ := max (Int.log 2 a) (-1022)
    let ulp : ℚ := 2 ^ (e - 52)
    let r : ℤ := roundHalfEven (a / ulp)
    let v : ℚ := r * ulp
    if (2 : ℚ) ^ (1024 : ℤ) ≤ v then infinity neg
    else if r = 0 then zero neg
    else signed neg v

/-- Whether the number is NaN. -/
def isNaN : F64 → Bool
  | nan => true
  | _ => false

/-- Whether the number is an infinity. -/
def isInf : F64 → Bool
  | posInf => true
  | negInf => true
  | _ => false

/-- Whether the number is a zero of either sign. -/
def isZero : F64 → Bool
  | negZero => true
  | fin q => decide (q = 0)
  | _ => false

/-- The sign bit. -/
def isNeg : F64 → Bool
  | negInf => true
  | negZero => true
  | fin q => decide (q < 0)
  | _ => false

/-- The rational a finite number denotes; 0 for the others. -/
def value : F64 → ℚ
  | fin q => q
  | _ => 0

/-- The operator `*` on numbers. -/
def mul (a b : F64) : F64 :=
  if a.isNaN || b.isNaN then nan
  else if a.isInf || b.isInf then
    if a.isZero || b.isZero then nan else infinity (xor a.isNeg b.isNeg)
  else roundMag (xor a.isNeg b.isNeg) (|a.value| * |b.value|)

/-- The operator `/` on numbers. -/
def div (a b : F64) : F64 :=
  if a.isNaN || b.isNaN then nan
  else if a.isInf then
    if b.isInf then nan else infinity (xor a.isNeg b.isNeg)
  else if b.isInf then zero (xor a.isNeg b.isNeg)
  else if b.isZero then
    if a.isZero then nan else infinity (xor a.isNeg b.isNeg)
  else roundMag (xor a.isNeg b.isNeg) (|a.value| / |b.value|)

/-- The operator `+` on numbers. -/
def add (a b : F64) : F64 :=
  if a.isNaN || b.isNaN then nan
  else if a.isInf then
    if b.isInf && (a.isNeg != b.isNeg) then nan else a
  else if b.isInf then b
  else if a = negZero ∧ b = negZero then negZero
  else if a.value + b.value = 0 then fin 0
  else roundMag (decide (a.value + b.value < 0)) |a.value + b.value|

end F64

/-- The white space and line terminators `StringToNumber` strips. -/
def isStrWhiteSpace (c : Char) : Bool :=
  let n := c.toNat
  n = 0x09 || n = 0x0A || n = 0x0B || n = 0x0C || n = 0x0D || n = 0x20 || n = 0xA0 ||
  n = 0x1680 || (0x2000 ≤ n && n ≤ 0x200A) || n = 0x2028 || n = 0x2029 || n = 0x202F ||
  n = 0x205F || n = 0x3000 || n = 0xFEFF

/-- The text without leading and trailing white space. -/
def trimWhiteSpace (cs : List Char) : List Char :=
  ((cs.dropWhile isStrWhiteSpace).reverse.dropWhile isStrWhiteSpace).reverse

/-- The value of a character as a digit of the base, if it is one. -/
def digitValue (base : ℕ) (c : Char) : Option ℕ :=
  let n := c.toNat
  let v : Option ℕ :=
    if 48 ≤ n ∧ n ≤ 57 then some (n - 48)
    else if 97 ≤ n ∧ n ≤ 102 then some (n - 87)
    else if 65 ≤ n ∧ n ≤ 70 then some (n - 55)
    else none
  match v with
  | some d => if d < base then some d else none
  | none => none

/-- The value of a run of digits of the base; `none` when a character is not
a digit. -/
def digitsValue (base : ℕ) (cs : List Char) : Option ℕ :=
  cs.foldl
    (fun acc c =>
      match acc, digitValue base c with
      | some a, some d => some (a * base + d)
      | _, _ => none)
    (some 0)

/-- The value of a run of at least one digit. -/
def digitsValueNonempty (base : ℕ) (cs : List Char) : Option ℕ :=
  if cs = [] then none else digitsValue base cs

/-- The leading decimal digits and what follows them. -/
def splitDigits (cs : List Char) : List Char × List Char :=
  cs.span (fun c => (digitValue 10 c).isSome)

/-- The exponent after `e`: an optional sign and at least one digit. -/
def parseExponent (cs : List Char) : Option ℤ :=
  match cs with
  | '+' :: r => (digitsValueNonempty 10 r).map (fun n => (n : ℤ))
  | '-' :: r => (digitsValueNonempty 10 r).map (fun n => -(n : ℤ))
  | r => (digitsValueNonempty 10 r).map (fun n => (n : ℤ))

/-- The exact value of an unsigned decimal literal: digits, an optional point
with digits on at least one side, an optional exponent. -/
def parseUnsignedDecimal (cs : List Char) : Option ℚ :=
  let ip := (splitDigits cs).1
  let r1 := (splitDigits cs).2
  let fp := match r1 with
    | '.' :: r => (splitDigits r).1
    | _ => []
  let r2 := match r1 with
    | '.' :: r => (splitDigits r).2
    | _ => r1
  if ip = [] ∧ fp = [] then none
  else
    let mant : ℚ := ((digitsValue 10 ip).getD 0 : ℚ)
      + ((digitsValue 10 fp).getD 0 : ℚ) / (10 : ℚ) ^ fp.length
    match r2 with
    | [] => some mant
    | c :: r =>
      if c = 'e' ∨ c = 'E' then (parseExponent r).map (fun e => mant * (10 : ℚ) ^ e)
      else none

/-- The digits after `0x`, `0o` or `0b`. -/
def parseNonDecimal (base : ℕ) (cs : List Char) : F64 :=
  match digitsValueNonempty base cs with
  | some n => F64.roundMag false (n : ℚ)
  | none => F64.nan

/-- An optional sign followed by `Infinity` or a decimal literal. -/
def parseSignedDecimal (cs : List Char) : F64 :=
  let neg : Bool := match cs with
    | '-' :: _ => true
    | _ => false
  let body : List Char := match cs with
    | '-' :: r => r
    | '+' :: r => r
    | r => r
  if body = ['I', 'n', 'f', 'i', 'n', 'i', 't', 'y'] then F64.infinity neg
  else match parseUnsignedDecimal body with
    | some q => F64.roundMag neg q
    | none => F64.nan

/-- The conversion of a string to a number (`StringToNumber`): the empty text
is 0, text that is not a numeric literal is NaN. -/
def stringToNumber (s : String) : F64 :=
  match trimWhiteSpace s.toList with
  | [] => F64.fin 0
  | '0' :: 'x' :: r => parseNonDecimal 16 r
  | '0' :: 'X' :: r => parseNonDecimal 16 r
  | '0' :: 'o' :: r => parseNonDecimal 8 r
  | '0' :: 'O' :: r => parseNonDecimal 8 r
  | '0' :: 'b' :: r => parseNonDecimal 2 r
  | '0' :: 'B' :: r => parseNonDecimal 2 r
  | cs => parseSignedDecimal cs

/-- The conversion `ToNumber` applied to the operand of an arithmetic
operator. -/
def toDouble : JSVal → F64
  | JSVal.undefined => F64.nan
  | JSVal.null => F64.fin 0
  | JSVal.bool true => F64.fin 1
  | JSVal.bool false => F64.fin 0
  | JSVal.num q => F64.fin q
  | JSVal.str s => stringToNumber s

/-- The number of an optional exact value, `none` being NaN. -/
def F64.ofOption : Option ℚ → F64
  | some q => F64.fin q
  | none => F64.nan

namespace RenderContext

variable {W : Type}

/-- Getter `blockSize`: `roomSize + roomGap`. Both operands are numbers or
`undefined`, so the `+` is the numeric one. -/
def blockSize (ctx : RenderContext W) : Option ℚ :=
  numAdd (geometryOperand ctx.roomSize) (geometryOperand ctx.roomGap)

/-- Getter `doorWidth`; `undefined` when no case matches. -/
def doorWidth (ctx : RenderContext W) : JSVal :=
  match ctx.mapStyle with
  | JSVal.str "legalmap" => JSVal.num 8
  | JSVal.str "hypixelmap" => JSVal.num 10
  | JSVal.str "teniosmap" => JSVal.num 15
  | _ => JSVal.undefined

/-- Method `getImageSize`: `this.paddingLeft * 2 + this.blockSize * 6 +
this.roomGap`, in doubles; the argument is not used. -/
def getImageSize (ctx : RenderContext W) (_floor : JSVal) : F64 :=
  F64.add
    (F64.add (F64.mul (F64.fin ctx.paddingLeft) (F64.fin 2))
      (F64.mul (F64.ofOption ctx.blockSize) (F64.fin 6)))
    (toDouble ctx.roomGap)

end RenderContext

/-! ### Tick images -/

/-- An image `new Image(file, url).image`, kept as the two arguments given to
the host loader: the local file name and the remote address. -/
structure ImageAsset where
  file : String
  url : String
  deriving DecidableEq, Repr

/-- The entries of the module constant `HypixelTicksOld`. -/
def HypixelTicksOld : JSMap String ImageAsset :=
  (JSMap.empty
    |>.set "greenCheck" ⟨"greenCheckVanilla.png", "https://i.imgur.com/h2WM1LO.png"⟩
    |>.set "whiteCheck" ⟨"whiteCheckVanilla.png", "https://i.imgur.com/hwEAcnI.png"⟩
    |>.set "failedRoom" ⟨"failedRoomVanilla.png", "https://i.imgur.com/WqW69z3.png"⟩
    |>.set "questionMark" ⟨"questionMarkVanilla.png", "https://i.imgur.com/1jyxH9I.png"⟩)

/-- The entries of the module constant `LegalMapTicks`. -/
def LegalMapTicks : JSMap String ImageAsset :=
  (JSMap.empty
    |>.set "greenCheck" ⟨"BloomMapGreenCheck.png", "https://i.imgur.com/GQfTfmp.png"⟩
    |>.set "whiteCheck" ⟨"BloomMapWhiteCheck.png", "https://i.imgur.com/9cZ28bJ.png"⟩
    |>.set "failedRoom" ⟨"BloomMapFailedRoom.png", "https://i.imgur.com/qAb4O9H.png"⟩
    |>.set "questionMark" ⟨"BloomMapQuestionMark.png", "https://i.imgur.com/kp92Inw.png"⟩)

namespace RenderContext

variable {W : Type}

/-- Method `getImage`; `none` is `undefined`, from the switch falling through
or from `Map.get` finding no entry. A `type` that is not a string is a key of
neither table. -/
def getImage (ctx : RenderContext W) (type : JSVal) : Option ImageAsset :=
  match ctx.tickStyle with
  | JSVal.str "default" =>
    match type with
    | JSVal.str t => LegalMapTicks.get t
    | _ => none
  | JSVal.str "hypixel" =>
    match type with
    | JSVal.str t => HypixelTicksOld.get t
    | _ => none
  | _ => none

/-- The expression `w * this.iconScale / 8` of `getIconSize`, in doubles. -/
def iconDim (ctx : RenderContext W) (w : ℚ) : F64 :=
  F64.div (F64.mul (F64.fin w) (toDouble ctx.iconScale)) (F64.fin 8)

/-- The inner switch of the case "default" of `getIconSize`; `none` when no
case returns. -/
def iconSizeDefault (ctx : RenderContext W) (type : JSVal) : Option (F64 × F64) :=
  match type with
  | JSVal.str "questionMark" => some (ctx.iconDim 16, ctx.iconDim 16)
  | JSVal.str "whiteCheck" => some (ctx.iconDim 16, ctx.iconDim 16)
  | JSVal.str "greenCheck" => some (ctx.iconDim 16, ctx.iconDim 16)
  | JSVal.str "failedRoom" => some (ctx.iconDim 16, ctx.iconDim 16)
  | _ => none

/-- The inner switch of the case "hypixel" of `getIconSize`; `none` when no
case returns. -/
def iconSizeHypixel (ctx : RenderContext W) (type : JSVal) : Option (F64 × F64) :=
  match type with
  | JSVal.str "questionMark" => some (ctx.iconDim 10, ctx.iconDim 16)
  | JSVal.str "whiteCheck" => some (ctx.iconDim 10, ctx.iconDim 10)
  | JSVal.str "greenCheck" => some (ctx.iconDim 10, ctx.iconDim 10)
  | JSVal.str "failedRoom" => some (ctx.iconDim 14, ctx.iconDim 14)
  | _ => none

/-- Method `getIconSize`. The result is the returned pair `[width, height]`,
or `none` when control leaves the switch without a `return` (`undefined`). The
case "default" has no `break`: when its inner switch returns nothing, control
runs on into the case "hypixel". -/
def getIconSize (ctx : RenderContext W) (type : JSVal) : Option (F64 × F64) :=
  match ctx.tickStyle with
  | JSVal.str "default" =>
    match ctx.iconSizeDefault type with
    | some r => some r
    | none => ctx.iconSizeHypixel type
  | JSVal.str "hypixel" => ctx.iconSizeHypixel type
  | _ => none

/-! ### Cache and teardown -/

/-- Method `markReRender`. -/
def markReRender (ctx : RenderContext W) : RenderContext W :=
  { ctx with imageLastUpdate := 0 }

/-- Method `onDestroy`: push the callback at the end of `onDestroys`. -/
def onDestroy (ctx : RenderContext W) (callback : W → W) : RenderContext W :=
  { ctx with onDestroys := ctx.onDestroys ++ [callback] }

/-- How a call of `destroy` ends: the context and the world it leaves, and
the exception it ended with, if any. -/
structure Outcome (W : Type) where
  ctx : RenderContext W
  world : W
  error : Option JSError

/-- Method `destroy`. The first statement is
`this.image?.getTexture()?.[m.deleteGlTexture]()`: when `image` is nullish, or
`getTexture()` is, the optional chain stops there; otherwise the key
`m.deleteGlTexture` is evaluated, and the file neither declares nor imports
`m`, so a ReferenceError is thrown and the call ends with the context and the
world as they were. When the chain stops, `image` becomes `undefined` and
every element of `onDestroys` is called in order (`forEach`). -/
def destroy (ctx : RenderContext W) (w : W) : Outcome W :=
  match ctx.image with
  | ImageRef.image (some _) =>
    { ctx := ctx, world := w, error := some JSError.referenceError }
  | _ =>
    let this1 : RenderContext W := { ctx with image := ImageRef.undefined }
    { ctx := this1,
      world := this1.onDestroys.foldl (fun acc callback => callback acc) w,
      error := none }

/-- Method `getMapDimensions`: the object literal `{x, y, size, headScale}`. -/
def getMapDimensions (ctx : RenderContext W) : JSObject :=
  [("x", ctx.posX), ("y", ctx.posY), ("size", ctx.size), ("headScale", ctx.headScale)]

end RenderContext

/-! ## Specification vocabulary -/

namespace RenderContext

variable {W : Type}

/-- The reading `r` of the settings field `k` against the record `s` and the
default `d`: when `s` has the property with a value (anything but
`undefined`), `r` is that value; when `s` has no such property, or has it
holding `undefined`, `r` is the default. -/
def FieldResolved (s : JSObject) (k : String) (d r : JSVal) : Prop :=
  (∀ v, s.lookup k = some v → v ≠ JSVal.undefined → r = v) ∧
  (s.lookup k = none → r = d) ∧
  (s.lookup k = some JSVal.undefined → r = d)

/-- A hook that appends its identifier to a log. -/
def logHook {ι : Type} (a : ι) : List ι → List ι :=
  fun log => log ++ [a]

/-- Registration of a sequence of callbacks, one `onDestroy` call each, in the
order of the sequence. -/
def registerAll (ctx : RenderContext W) (callbacks : List (W → W)) : RenderContext W :=
  callbacks.foldl onDestroy ctx

/-- The base size (width, height) the specification tabulates for a tick
style and an icon kind. -/
def baseIconSize (style kind : String) : Option (ℚ × ℚ) :=
  if style = "default" then
    if kind = "greenCheck" ∨ kind = "whiteCheck" ∨ kind = "failedRoom" ∨ kind = "questionMark"
    then some (16, 16) else none
  else if style = "hypixel" then
    if kind = "questionMark" then some (10, 16)
    else if kind = "whiteCheck" ∨ kind = "greenCheck" then some (10, 10)
    else if kind = "failedRoom" then some (14, 14)
    else none
  else none

/-- A context whose settings are exactly the given object; the other fields
are those of a new context. -/
def withSettings (settings : JSObject) : RenderContext W :=
  { settings := settings, image := ImageRef.null, imageLastUpdate := 0,
    paddingTop := 0, paddingLeft := 0, borderWidth := 2, onDestroys := [] }

/-- Example context: the settings of `addMissing({})`. -/
def legalContext : RenderContext Unit :=
  withSettings (addMissingFrom (JSArg.obj []))

/-- Example context: map style "hypixelmap", tick style "hypixel", icon
scale 12. -/
def hypixelContext : RenderContext Unit :=
  withSettings (addMissingFrom (JSArg.obj
    [("mapStyle", JSVal.str "hypixelmap"), ("tickStyle", JSVal.str "hypixel"),
     ("iconScale", JSVal.num 12)]))

/-- Example context: map style "teniosmap". -/
def teniosContext : RenderContext Unit :=
  withSettings (addMissingFrom (JSArg.obj [("mapStyle", JSVal.str "teniosmap")]))

/-- Every one of the fourteen settings getters yields a value: none of them
reads `undefined`. -/
def SettingsComplete (ctx : RenderContext W) : Prop :=
  ctx.mapStyle ≠ JSVal.undefined ∧ ctx.posX ≠ JSVal.undefined ∧
  ctx.posY ≠ JSVal.undefined ∧ ctx.size ≠ JSVal.undefined ∧
  ctx.headScale ≠ JSVal.undefined ∧ ctx.iconScale ≠ JSVal.undefined ∧
  ctx.tickStyle ≠ JSVal.undefined ∧ ctx.puzzleNames ≠ JSVal.undefined ∧
  ctx.headBorder ≠ JSVal.undefined ∧ ctx.playerNames ≠ JSVal.undefined ∧
  ctx.currentRoomInfo ≠ JSVal.undefined ∧ ctx.scoreInfoUnderMap ≠ JSVal.undefined ∧
  ctx.forcePaul ≠ JSVal.undefined ∧ ctx.devInfo ≠ JSVal.undefined

/-- The documented default of each settings field. -/
def documentedDefaults : List (String × JSVal) :=
  [("mapStyle", JSVal.str "legalmap"), ("posX", JSVal.num 0), ("posY", JSVal.num 0),
   ("size", JSVal.num 100), ("headScale", JSVal.num 8), ("iconScale", JSVal.num 8),
   ("tickStyle", JSVal.str "default"), ("puzzleNames", JSVal.str "none"),
   ("headBorder", JSVal.bool false), ("playerNames", JSVal.bool true),
   ("currentRoomInfo", JSVal.str "none"), ("scoreInfoUnderMap", JSVal.str "simplified"),
   ("forcePaul", JSVal.bool false), ("devInfo", JSVal.bool false)]

/-- Example record: a recognised key together with a key that is not a
settings name. -/
def recordWithExtraKey : JSObject :=
  [("posX", JSVal.num 5), ("zoom", JSVal.num 3)]

/-- Example record: `recordWithExtraKey` without its unrecognised key. -/
def recordWithoutExtraKey : JSObject :=
  [("posX", JSVal.num 5)]

/-- The four icon kinds the tick tables are written for. -/
def iconKinds : List String :=
  ["greenCheck", "whiteCheck", "failedRoom", "questionMark"]

/-- The ten room types of `roomHash`, by number. -/
def roomTypes : List Nat := roomHash.map Prod.snd

/-- The keys of a `Map`, in insertion order. -/
def JSMapKeys {κ ν : Type} (m : JSMap κ ν) : List κ := m.entries.map Prod.fst

/-- Example context: a map style outside the three supported ones and the
tick style "secrets". -/
def unsupportedContext : RenderContext Unit :=
  withSettings (addMissingFrom (JSArg.obj
    [("mapStyle", JSVal.str "vanilla"), ("tickStyle", JSVal.str "secrets")]))

/-- The calls `forEach` makes on a list of callbacks: each in turn, from the
first to the last. -/
def runAll (callbacks : List (W → W)) (w : W) : W :=
  callbacks.foldl (fun acc callback => callback acc) w

/-- Two `destroy()` calls in a row, the second made whether or not the first
threw: how the second call ends. -/
def destroyTwice (ctx : RenderContext W) (w : W) : Outcome W :=
  (ctx.destroy w).ctx.destroy (ctx.destroy w).world

/-- Example context: a new context on which the hook "A" was registered and
in which the renderer has stored an image that has a texture. The world is a
log of the calls made. -/
def texturedContext : RenderContext (List String) :=
  { (withSettings (addMissingFrom (JSArg.obj [])) : RenderContext (List String)) with
    image := ImageRef.image (some (logHook "deleteGlTexture")),
    onDestroys := [logHook "A"] }

/-- Example context: tick style "default" and iconScale `2 ^ 1019`. -/
def largeScaleContext : RenderContext Unit :=
  withSettings (addMissingFrom (JSArg.obj [("iconScale", JSVal.num (2 ^ 1019))]))

/-- Example context: tick style "default" and twice the iconScale of
`largeScaleContext`. -/
def doubledLargeScaleContext : RenderContext Unit :=
  withSettings (addMissingFrom (JSArg.obj [("iconScale", JSVal.num (2 * 2 ^ 1019))]))

/-! ## Lemmas on objects and `addMissing` -/

theorem orDefault_resolved (s : JSObject) (k : String) (d : JSVal) :
    FieldResolved s k d (orDefault (s.getProp k) d) := by
  unfold FieldResolved orDefault JSObject.getProp
  refine ⟨?_, ?_, ?_⟩
  · intro v hv hne
    simp [hv, hne]
  · intro hn
    simp [hn]
  · intro hu
    simp [hu]

theorem addMissing_obj (s : JSObject) :
    addMissing (JSArg.obj s) = Except.ok (addMissingFrom (JSArg.obj s)) := rfl

theorem setSettings_obj (ctx : RenderContext W) (s : JSObject) :
    ctx.setSettings (JSArg.obj s)
      = Except.ok { ctx with settings := addMissingFrom (JSArg.obj s) } := rfl

/-! ## Settings normalisation -/

/-- C1: for every record `s`, `setSettings(s)` returns normally and afterwards
each of the fourteen getters reads the value `s` gave that field when `s`
specified it, and otherwise its default: mapStyle "legalmap", posX 0, posY 0,
size 100, headScale 8, iconScale 8, tickStyle "default", puzzleNames "none",
headBorder false, playerNames true, currentRoomInfo "none",
scoreInfoUnderMap "simplified", forcePaul false, devInfo false. -/
theorem setSettings_reads_input_or_default (ctx : RenderContext W) (s : JSObject) :
    ∃ ctx1 : RenderContext W, ctx.setSettings (JSArg.obj s) = Except.ok ctx1 ∧
      FieldResolved s "mapStyle" (JSVal.str "legalmap") ctx1.mapStyle ∧
      FieldResolved s "posX" (JSVal.num 0) ctx1.posX ∧
      FieldResolved s "posY" (JSVal.num 0) ctx1.posY ∧
      FieldResolved s "size" (JSVal.num 100) ctx1.size ∧
      FieldResolved s "headScale" (JSVal.num 8) ctx1.headScale ∧
      FieldResolved s "iconScale" (JSVal.num 8) ctx1.iconScale ∧
      FieldResolved s "tickStyle" (JSVal.str "default") ctx1.tickStyle ∧
      FieldResolved s "puzzleNames" (JSVal.str "none") ctx1.puzzleNames ∧
      FieldResolved s "headBorder" (JSVal.bool false) ctx1.headBorder ∧
      FieldResolved s "playerNames" (JSVal.bool true) ctx1.playerNames ∧
      FieldResolved s "currentRoomInfo" (JSVal.str "none") ctx1.currentRoomInfo ∧
      FieldResolved s "scoreInfoUnderMap" (JSVal.str "simplified") ctx1.scoreInfoUnderMap ∧
      FieldResolved s "forcePaul" (JSVal.bool false) ctx1.forcePaul ∧
      FieldResolved s "devInfo" (JSVal.bool false) ctx1.devInfo := by
  refine ⟨_, setSettings_obj ctx s, ?_, ?_, ?_, ?_, ?_, ?_, ?_, ?_, ?_, ?_, ?_, ?_, ?_, ?_⟩
  all_goals exact orDefault_resolved s _ _

/-! ## Destroy hooks -/

theorem registerAll_onDestroys (callbacks : List (W → W)) (ctx : RenderContext W) :
    (registerAll ctx callbacks).onDestroys = ctx.onDestroys ++ callbacks := by
  induction callbacks generalizing ctx with
  | nil => simp [registerAll]
  | cons c rest ih =>
    have h := ih (ctx.onDestroy c)
    simp only [registerAll, List.foldl_cons] at h ⊢
    rw [h]
    simp [onDestroy]

theorem registerAll_image (callbacks : List (W → W)) (ctx : RenderContext W) :
    (registerAll ctx callbacks).image = ctx.image := by
  induction callbacks generalizing ctx with
  | nil => rfl
  | cons c rest ih =>
    have h := ih (ctx.onDestroy c)
    simp only [registerAll, List.foldl_cons] at h ⊢
    rw [h]
    rfl

theorem new_obj (s : JSObject) :
    (RenderContext.new (JSArg.obj s) : Except JSError (RenderContext W))
      = Except.ok
          { settings := addMissingFrom (JSArg.obj s), image := ImageRef.null,
            imageLastUpdate := 0, paddingTop := 0, paddingLeft := 0, borderWidth := 2,
            onDestroys := [] } := rfl

theorem foldl_logHook {ι : Type} (ids log : List ι) :
    (ids.map logHook).foldl (fun acc callback => callback acc) log = log ++ ids := by
  induction ids generalizing log with
  | nil => simp
  | cons a rest ih =>
    simp only [List.map_cons, List.foldl_cons]
    rw [ih]
    simp [logHook]

/-- C2: on a context just constructed from any settings record, after the
callbacks h1..hn (n >= 0, repetitions allowed) have been registered through
`onDestroy`, one `destroy()` call returns normally and runs h1, h2, ..., hn,
each once and in registration order: the world after the call is
hn(...h2(h1(w))), and hooks that append their identifier to a log leave the
log extended by exactly the sequence of identifiers (nothing for n = 0, a
repeated identifier once per registration). -/
theorem destroy_invokes_hooks_in_registration_order {ι : Type} (s : JSObject) :
    (∀ (callbacks : List (W → W)) (w : W),
      ∃ ctx0 : RenderContext W, RenderContext.new (JSArg.obj s) = Except.ok ctx0 ∧
        ((registerAll ctx0 callbacks).destroy w).2
          = callbacks.foldl (fun acc callback => callback acc) w ∧
        ((registerAll ctx0 callbacks).destroy w).error = none) ∧
    (∀ (ids log : List ι),
      ∃ ctx0 : RenderContext (List ι), RenderContext.new (JSArg.obj s) = Except.ok ctx0 ∧
        ((registerAll ctx0 (ids.map logHook)).destroy log).2 = log ++ ids ∧
        ((registerAll ctx0 (ids.map logHook)).destroy log).error = none) := by
  have key : ∀ (V : Type) (callbacks : List (V → V)) (w : V),
      ∃ ctx0 : RenderContext V, RenderContext.new (JSArg.obj s) = Except.ok ctx0 ∧
        ((registerAll ctx0 callbacks).destroy w).2
          = callbacks.foldl (fun acc callback => callback acc) w ∧
        ((registerAll ctx0 callbacks).destroy w).error = none := by
    intro V callbacks w
    refine ⟨_, new_obj s, ?_, ?_⟩
    · simp [destroy, registerAll_onDestroys, registerAll_image]
    · simp [destroy, registerAll_image]
  refine ⟨key W, ?_⟩
  intro ids log
  obtain ⟨ctx0, h0, h1, h2⟩ := key (List ι) (ids.map logHook) log
  exact ⟨ctx0, h0, by rw [h1, foldl_logHook], h2⟩

/-! ## Geometry of the map styles -/

/-- C3: the geometry getters return the tabulated constants. For "legalmap"
roomSize is 24, roomGap 8, doorWidth 8; for "hypixelmap" 24, 6, 10; for
"teniosmap" 24, 6, 15; and in each of the three styles blockSize is
roomSize + roomGap, that is 32, 30 and 30. -/
theorem geometry_constants_per_style (ctx : RenderContext W) :
    (ctx.mapStyle = JSVal.str "legalmap" →
      ctx.roomSize = JSVal.num 24 ∧ ctx.roomGap = JSVal.num 8 ∧
      ctx.doorWidth = JSVal.num 8 ∧ ctx.blockSize = some (24 + 8) ∧
      ctx.blockSize = some 32) ∧
    (ctx.mapStyle = JSVal.str "hypixelmap" →
      ctx.roomSize = JSVal.num 24 ∧ ctx.roomGap = JSVal.num 6 ∧
      ctx.doorWidth = JSVal.num 10 ∧ ctx.blockSize = some (24 + 6) ∧
      ctx.blockSize = some 30) ∧
    (ctx.mapStyle = JSVal.str "teniosmap" →
      ctx.roomSize = JSVal.num 24 ∧ ctx.roomGap = JSVal.num 6 ∧
      ctx.doorWidth = JSVal.num 15 ∧ ctx.blockSize = some (24 + 6) ∧
      ctx.blockSize = some 30) := by
  refine ⟨?_, ?_, ?_⟩ <;> intro h <;>
    simp [roomSize, roomGap, doorWidth, blockSize, geometryOperand, numAdd, h] <;> norm_num

/-- The geometry table read off three concrete contexts, one per supported
style. -/
theorem geometry_constants_per_style_witness :
    ((legalContext.roomGap = JSVal.num 8 ∧ legalContext.blockSize = some 32) ∧
      hypixelContext.doorWidth = JSVal.num 10) ∧
    teniosContext.doorWidth = JSVal.num 15 :=
  ⟨⟨⟨((geometry_constants_per_style legalContext).1 rfl).2.1,
      ((geometry_constants_per_style legalContext).1 rfl).2.2.2.2⟩,
    ((geometry_constants_per_style hypixelContext).2.1 rfl).2.2.1⟩,
   ((geometry_constants_per_style teniosContext).2.2 rfl).2.2.1⟩

end RenderContext

/-! ## Rounding to doubles -/

namespace F64

theorem log2_bounds (a : ℚ) (ha : 0 < a) :
    (2 : ℚ) ^ Int.log 2 a ≤ a ∧ a < (2 : ℚ) ^ (Int.log 2 a + 1) := by
  have h1 := Int.zpow_log_le_self (b := 2) (r := a) (by norm_num) ha
  have h2 := Int.lt_zpow_succ_log_self (b := 2) (by norm_num) a
  simp only [Nat.cast_ofNat] at h1 h2
  exact ⟨h1, h2⟩

theorem log2_eq (a : ℚ) (k : ℤ) (ha : 0 < a) (h1 : (2 : ℚ) ^ k ≤ a)
    (h2 : a < (2 : ℚ) ^ (k + 1)) : Int.log 2 a = k := by
  have hb := log2_bounds a ha
  have two : (1 : ℚ) < 2 := by norm_num
  have l1 : k < Int.log 2 a + 1 :=
    (zpow_lt_zpow_iff_right₀ two).mp (lt_of_le_of_lt h1 hb.2)
  have l2 : Int.log 2 a < k + 1 :=
    (zpow_lt_zpow_iff_right₀ two).mp (lt_of_le_of_lt hb.1 h2)
  omega

theorem roundHalfEven_bounds (x : ℚ) :
    ⌊x⌋ ≤ roundHalfEven x ∧ roundHalfEven x ≤ ⌊x⌋ + 1 := by
  unfold roundHalfEven
  simp only
  split
  · omega
  · split
    · omega
    · split <;> omega

theorem roundHalfEven_intCast (m : ℤ) : roundHalfEven (m : ℚ) = m := by
  unfold roundHalfEven
  simp

theorem two_zpow_pos (k : ℤ) : (0 : ℚ) < (2 : ℚ) ^ k := zpow_pos (by norm_num) k

/-- A magnitude `m * 2 ^ t` with `m` below `2 ^ 53` and `t` between -1074 and
971 is a double, and rounding leaves it as it is. -/
theorem roundMag_exact (neg : Bool) (m : ℕ) (t : ℤ) (hm0 : 0 < m) (hm : m < 2 ^ 53)
    (ht1 : -1074 ≤ t) (ht2 : t ≤ 971) :
    roundMag neg ((m : ℚ) * (2 : ℚ) ^ t) = signed neg ((m : ℚ) * (2 : ℚ) ^ t) := by
  have two : (1 : ℚ) < 2 := by norm_num
  have two0 : (2 : ℚ) ≠ 0 := by norm_num
  have hmq : (0 : ℚ) < (m : ℚ) := by exact_mod_cast hm0
  have hmq2 : (m : ℚ) < (2 : ℚ) ^ (53 : ℤ) := by
    calc (m : ℚ) < ((2 ^ 53 : ℕ) : ℚ) := by exact_mod_cast hm
      _ = (2 : ℚ) ^ (53 : ℤ) := by norm_num
  have ha : (0 : ℚ) < (m : ℚ) * (2 : ℚ) ^ t := mul_pos hmq (two_zpow_pos t)
  have hb := log2_bounds _ ha
  have hlt : (m : ℚ) * (2 : ℚ) ^ t < (2 : ℚ) ^ (53 + t) := by
    rw [zpow_add₀ two0]
    exact mul_lt_mul_of_pos_right hmq2 (two_zpow_pos t)
  have hE : Int.log 2 ((m : ℚ) * (2 : ℚ) ^ t) < 53 + t :=
    (zpow_lt_zpow_iff_right₀ two).mp (lt_of_le_of_lt hb.1 hlt)
  have hd : 0 ≤ t - (max (Int.log 2 ((m : ℚ) * (2 : ℚ) ^ t)) (-1022) - 52) := by
    rcases max_cases (Int.log 2 ((m : ℚ) * (2 : ℚ) ^ t)) (-1022) with h | h <;> omega
  obtain ⟨d, hdn⟩ := Int.eq_ofNat_of_zero_le hd
  have hquot : (m : ℚ) * (2 : ℚ) ^ t
      / (2 : ℚ) ^ (max (Int.log 2 ((m : ℚ) * (2 : ℚ) ^ t)) (-1022) - 52)
      = (((m * 2 ^ d : ℕ) : ℤ) : ℚ) := by
    rw [mul_div_assoc, ← zpow_sub₀ two0, hdn]
    push_cast
    rw [zpow_natCast]
  have hv : ((((m * 2 ^ d : ℕ) : ℤ) : ℚ))
      * (2 : ℚ) ^ (max (Int.log 2 ((m : ℚ) * (2 : ℚ) ^ t)) (-1022) - 52)
      = (m : ℚ) * (2 : ℚ) ^ t := by
    rw [← hquot]
    field_simp
  have hr0 : ((m * 2 ^ d : ℕ) : ℤ) ≠ 0 := by
    have : 0 < m * 2 ^ d := Nat.mul_pos hm0 (by positivity)
    omega
  have hno : ¬ (2 : ℚ) ^ (1024 : ℤ) ≤ (m : ℚ) * (2 : ℚ) ^ t := by
    have h1 : (2 : ℚ) ^ (53 + t) ≤ (2 : ℚ) ^ (1024 : ℤ) :=
      (zpow_le_zpow_iff_right₀ two).mpr (by omega)
    exact not_le.mpr (lt_of_lt_of_le hlt h1)
  unfold roundMag
  simp only [ne_of_gt ha, if_false]
  rw [hquot, roundHalfEven_intCast, hv]
  simp only [hno, if_false, hr0]

/-- A magnitude of `2 ^ 1024` or more rounds to infinity. -/
theorem roundMag_overflow (neg : Bool) (a : ℚ) (ha : (2 : ℚ) ^ (1024 : ℤ) ≤ a) :
    roundMag neg a = infinity neg := by
  have two : (1 : ℚ) < 2 := by norm_num
  have two0 : (2 : ℚ) ≠ 0 := by norm_num
  have hpos : (0 : ℚ) < a := lt_of_lt_of_le (two_zpow_pos 1024) ha
  have hb := log2_bounds a hpos
  have hE : (1024 : ℤ) ≤ Int.log 2 a := by
    have : (1024 : ℤ) < Int.log 2 a + 1 :=
      (zpow_lt_zpow_iff_right₀ two).mp (lt_of_le_of_lt ha hb.2)
    omega
  have hmax : max (Int.log 2 a) (-1022) = Int.log 2 a := max_eq_left (by omega)
  have hulp := two_zpow_pos (Int.log 2 a - 52)
  have hn : (2 : ℚ) ^ (52 : ℤ) ≤ a / (2 : ℚ) ^ (Int.log 2 a - 52) := by
    rw [le_div_iff₀ hulp, ← zpow_add₀ two0]
    have : (52 : ℤ) + (Int.log 2 a - 52) = Int.log 2 a := by ring
    rw [this]
    exact hb.1
  have hfloor : ((2 ^ 52 : ℕ) : ℤ) ≤ ⌊a / (2 : ℚ) ^ (Int.log 2 a - 52)⌋ := by
    rw [Int.le_floor]
    have : ((((2 ^ 52 : ℕ) : ℤ)) : ℚ) = (2 : ℚ) ^ (52 : ℤ) := by norm_num
    rw [this]
    exact hn
  have hr := (roundHalfEven_bounds (a / (2 : ℚ) ^ (Int.log 2 a - 52))).1
  have hr2 : (2 : ℚ) ^ (52 : ℤ)
      ≤ ((roundHalfEven (a / (2 : ℚ) ^ (Int.log 2 a - 52)) : ℤ) : ℚ) := by
    have h3 : ((2 ^ 52 : ℕ) : ℤ) ≤ roundHalfEven (a / (2 : ℚ) ^ (Int.log 2 a - 52)) :=
      le_trans hfloor hr
    have h4 : ((((2 ^ 52 : ℕ) : ℤ)) : ℚ)
        ≤ ((roundHalfEven (a / (2 : ℚ) ^ (Int.log 2 a - 52)) : ℤ) : ℚ) := by
      exact_mod_cast h3
    have : ((((2 ^ 52 : ℕ) : ℤ)) : ℚ) = (2 : ℚ) ^ (52 : ℤ) := by norm_num
    rw [this] at h4
    exact h4
  have hv : (2 : ℚ) ^ (1024 : ℤ)
      ≤ ((roundHalfEven (a / (2 : ℚ) ^ (Int.log 2 a - 52)) : ℤ) : ℚ)
        * (2 : ℚ) ^ (Int.log 2 a - 52) := by
    have h5 : (2 : ℚ) ^ (52 : ℤ) * (2 : ℚ) ^ (Int.log 2 a - 52)
        ≤ ((roundHalfEven (a / (2 : ℚ) ^ (Int.log 2 a - 52)) : ℤ) : ℚ)
          * (2 : ℚ) ^ (Int.log 2 a - 52) :=
      mul_le_mul_of_nonneg_right hr2 (le_of_lt hulp)
    rw [← zpow_add₀ two0] at h5
    have : (52 : ℤ) + (Int.log 2 a - 52) = Int.log 2 a := by ring
    rw [this] at h5
    exact le_trans ((zpow_le_zpow_iff_right₀ two).mpr hE) h5
  unfold roundMag
  simp only [ne_of_gt hpos, if_false, hmax]
  rw [if_pos hv]

/-- In the normal range rounding commutes with doubling: a magnitude `a`
whose binary exponent lies between -1022 and 1021 rounds to some `v` of the
same binade, and `2 * a` rounds to `2 * v`. -/
theorem roundMag_double (neg : Bool) (a : ℚ) (ha : 0 < a)
    (h1 : -1022 ≤ Int.log 2 a) (h2 : Int.log 2 a ≤ 1021) :
    ∃ v : ℚ, roundMag neg a = signed neg v ∧ roundMag neg (2 * a) = signed neg (2 * v) ∧
      (2 : ℚ) ^ Int.log 2 a ≤ v ∧ v ≤ (2 : ℚ) ^ (Int.log 2 a + 1) := by
  have two : (1 : ℚ) < 2 := by norm_num
  have two0 : (2 : ℚ) ≠ 0 := by norm_num
  have hb := log2_bounds a ha
  have hulp := two_zpow_pos (Int.log 2 a - 52)
  have hn1 : (2 : ℚ) ^ (52 : ℤ) ≤ a / (2 : ℚ) ^ (Int.log 2 a - 52) := by
    rw [le_div_iff₀ hulp, ← zpow_add₀ two0]
    have : (52 : ℤ) + (Int.log 2 a - 52) = Int.log 2 a := by ring
    rw [this]
    exact hb.1
  have hn2 : a / (2 : ℚ) ^ (Int.log 2 a - 52) < (2 : ℚ) ^ (53 : ℤ) := by
    rw [div_lt_iff₀ hulp, ← zpow_add₀ two0]
    have : (53 : ℤ) + (Int.log 2 a - 52) = Int.log 2 a + 1 := by ring
    rw [this]
    exact hb.2
  have c52 : ((((2 ^ 52 : ℕ) : ℤ)) : ℚ) = (2 : ℚ) ^ (52 : ℤ) := by norm_num
  have c53 : ((((2 ^ 53 : ℕ) : ℤ)) : ℚ) = (2 : ℚ) ^ (53 : ℤ) := by norm_num
  have hf1 : ((2 ^ 52 : ℕ) : ℤ) ≤ ⌊a / (2 : ℚ) ^ (Int.log 2 a - 52)⌋ := by
    rw [Int.le_floor, c52]
    exact hn1
  have hf2 : ⌊a / (2 : ℚ) ^ (Int.log 2 a - 52)⌋ < ((2 ^ 53 : ℕ) : ℤ) := by
    rw [Int.floor_lt, c53]
    exact hn2
  have hrb := roundHalfEven_bounds (a / (2 : ℚ) ^ (Int.log 2 a - 52))
  have hr1 : ((2 ^ 52 : ℕ) : ℤ) ≤ roundHalfEven (a / (2 : ℚ) ^ (Int.log 2 a - 52)) :=
    le_trans hf1 hrb.1
  have hr2 : roundHalfEven (a / (2 : ℚ) ^ (Int.log 2 a - 52)) ≤ ((2 ^ 53 : ℕ) : ℤ) := by
    omega
  have hq1 : (2 : ℚ) ^ (52 : ℤ)
      ≤ ((roundHalfEven (a / (2 : ℚ) ^ (Int.log 2 a - 52)) : ℤ) : ℚ) := by
    rw [← c52]
    exact_mod_cast hr1
  have hq2 : ((roundHalfEven (a / (2 : ℚ) ^ (Int.log 2 a - 52)) : ℤ) : ℚ)
      ≤ (2 : ℚ) ^ (53 : ℤ) := by
    rw [← c53]
    exact_mod_cast hr2
  have hr0 : roundHalfEven (a / (2 : ℚ) ^ (Int.log 2 a - 52)) ≠ 0 := by
    have : (0 : ℤ) < ((2 ^ 52 : ℕ) : ℤ) := by norm_num
    omega
  have hv1 : (2 : ℚ) ^ Int.log 2 a
      ≤ ((roundHalfEven (a / (2 : ℚ) ^ (Int.log 2 a - 52)) : ℤ) : ℚ)
        * (2 : ℚ) ^ (Int.log 2 a - 52) := by
    have h5 := mul_le_mul_of_nonneg_right hq1 (le_of_lt hulp)
    rw [← zpow_add₀ two0] at h5
    have : (52 : ℤ) + (Int.log 2 a - 52) = Int.log 2 a := by ring
    rw [this] at h5
    exact h5
  have hv2 : ((roundHalfEven (a / (2 : ℚ) ^ (Int.log 2 a - 52)) : ℤ) : ℚ)
        * (2 : ℚ) ^ (Int.log 2 a - 52) ≤ (2 : ℚ) ^ (Int.log 2 a + 1) := by
    have h5 := mul_le_mul_of_nonneg_right hq2 (le_of_lt hulp)
    rw [← zpow_add₀ two0] at h5
    have : (53 : ℤ) + (Int.log 2 a - 52) = Int.log 2 a + 1 := by ring
    rw [this] at h5
    exact h5
  have hno1 : ¬ (2 : ℚ) ^ (1024 : ℤ)
      ≤ ((roundHalfEven (a / (2 : ℚ) ^ (Int.log 2 a - 52)) : ℤ) : ℚ)
        * (2 : ℚ) ^ (Int.log 2 a - 52) := by
    have h6 : (2 : ℚ) ^ (Int.log 2 a + 1) < (2 : ℚ) ^ (1024 : ℤ) :=
      (zpow_lt_zpow_iff_right₀ two).mpr (by omega)
    exact not_le.mpr (lt_of_le_of_lt hv2 h6)
  -- the doubled magnitude
  have ha2 : (0 : ℚ) < 2 * a := by linarith
  have hlog2 : Int.log 2 (2 * a) = Int.log 2 a + 1 := by
    apply log2_eq (2 * a) (Int.log 2 a + 1) ha2
    · rw [zpow_add₀ two0, zpow_one]
      linarith [hb.1]
    · rw [zpow_add₀ two0 (Int.log 2 a + 1) 1, zpow_one]
      linarith [hb.2]
  have hulp2 : (2 : ℚ) ^ (Int.log 2 a + 1 - 52) = 2 * (2 : ℚ) ^ (Int.log 2 a - 52) := by
    have : Int.log 2 a + 1 - 52 = 1 + (Int.log 2 a - 52) := by ring
    rw [this, zpow_add₀ two0, zpow_one]
  have hquot2 : 2 * a / (2 * (2 : ℚ) ^ (Int.log 2 a - 52))
      = a / (2 : ℚ) ^ (Int.log 2 a - 52) := by
    field_simp
    ring
  have hno2 : ¬ (2 : ℚ) ^ (1024 : ℤ)
      ≤ ((roundHalfEven (a / (2 : ℚ) ^ (Int.log 2 a - 52)) : ℤ) : ℚ)
        * (2 * (2 : ℚ) ^ (Int.log 2 a - 52)) := by
    have h6 : (2 : ℚ) * (2 : ℚ) ^ (Int.log 2 a + 1) ≤ (2 : ℚ) ^ (1023 : ℤ) := by
      have : (2 : ℚ) * (2 : ℚ) ^ (Int.log 2 a + 1) = (2 : ℚ) ^ (Int.log 2 a + 2) := by
        have e : Int.log 2 a + 2 = 1 + (Int.log 2 a + 1) := by ring
        rw [e, zpow_add₀ two0 1 (Int.log 2 a + 1), zpow_one]
      rw [this]
      exact (zpow_le_zpow_iff_right₀ two).mpr (by omega)
    have h7 : (2 : ℚ) ^ (1023 : ℤ) < (2 : ℚ) ^ (1024 : ℤ) :=
      (zpow_lt_zpow_iff_right₀ two).mpr (by norm_num)
    apply not_le.mpr
    calc ((roundHalfEven (a / (2 : ℚ) ^ (Int.log 2 a - 52)) : ℤ) : ℚ)
          * (2 * (2 : ℚ) ^ (Int.log 2 a - 52))
        = 2 * (((roundHalfEven (a / (2 : ℚ) ^ (Int.log 2 a - 52)) : ℤ) : ℚ)
          * (2 : ℚ) ^ (Int.log 2 a - 52)) := by ring
      _ ≤ 2 * (2 : ℚ) ^ (Int.log 2 a + 1) := by linarith [hv2]
      _ ≤ (2 : ℚ) ^ (1023 : ℤ) := h6
      _ < (2 : ℚ) ^ (1024 : ℤ) := h7
  refine ⟨((roundHalfEven (a / (2 : ℚ) ^ (Int.log 2 a - 52)) : ℤ) : ℚ)
      * (2 : ℚ) ^ (Int.log 2 a - 52), ?_, ?_, hv1, hv2⟩
  · unfold roundMag
    simp only [ne_of_gt ha, if_false, max_eq_left h1]
    simp only [hno1, if_false, hr0]
  · unfold roundMag
    have hmax : max (Int.log 2 a + 1) (-1022) = Int.log 2 a + 1 := max_eq_left (by omega)
    simp only [ne_of_gt ha2, if_false, hlog2, hmax, hulp2, hquot2]
    simp only [hno2, if_false, hr0]
    congr 1
    ring

theorem mul_fin_fin (a b : ℚ) :
    mul (fin a) (fin b) = roundMag (xor (decide (a < 0)) (decide (b < 0))) (|a| * |b|) := by
  simp [mul, isNaN, isInf, isNeg, value]

theorem div_signed_fin (neg : Bool) (v d : ℚ) (hv : 0 < v) (hd : 0 < d) :
    div (signed neg v) (fin d) = roundMag neg (v / d) := by
  have hd0 : d ≠ 0 := ne_of_gt hd
  have hdn : ¬ d < 0 := not_lt.mpr (le_of_lt hd)
  cases neg
  · have hvn : ¬ v < 0 := not_lt.mpr (le_of_lt hv)
    simp [div, signed, isNaN, isInf, isZero, isNeg, value, hd0, hdn, hvn,
      abs_of_pos hv, abs_of_pos hd]
  · have hvn : -v < 0 := by linarith
    simp [div, signed, isNaN, isInf, isZero, isNeg, value, hd0, hdn, hv,
      abs_of_pos hv, abs_of_pos hd]

theorem signed_double (neg : Bool) (v : ℚ) :
    ∃ w : ℚ, signed neg v = fin w ∧ signed neg (2 * v) = fin (2 * w) := by
  cases neg
  · exact ⟨v, rfl, rfl⟩
  · refine ⟨-v, rfl, ?_⟩
    simp [signed]

theorem log2_range (a : ℚ) (lo hi : ℤ) (ha : 0 < a) (h1 : (2 : ℚ) ^ lo ≤ a)
    (h2 : a < (2 : ℚ) ^ hi) : lo ≤ Int.log 2 a ∧ Int.log 2 a < hi := by
  have two : (1 : ℚ) < 2 := by norm_num
  have hb := log2_bounds a ha
  constructor
  · have : lo < Int.log 2 a + 1 := (zpow_lt_zpow_iff_right₀ two).mp (lt_of_le_of_lt h1 hb.2)
    omega
  · exact (zpow_lt_zpow_iff_right₀ two).mp (lt_of_le_of_lt hb.1 h2)

/-- The expression `w0 * s / 8` in doubles, for `w0` between 8 and 16 and `s`
of magnitude at least `2 ^ -1022` and below `2 ^ 1018`: twice the `s` gives
twice the result. -/
theorem mul_div8_double (w0 q : ℚ) (hw1 : 8 ≤ w0) (hw2 : w0 ≤ 16)
    (hq1 : (2 : ℚ) ^ (-1022 : ℤ) ≤ |q|) (hq2 : |q| < (2 : ℚ) ^ (1018 : ℤ)) :
    ∃ w : ℚ, div (mul (fin w0) (fin q)) (fin 8) = fin w ∧
      div (mul (fin w0) (fin (2 * q))) (fin 8) = fin (2 * w) := by
  have two : (1 : ℚ) < 2 := by norm_num
  have two0 : (2 : ℚ) ≠ 0 := by norm_num
  have hw0 : (0 : ℚ) < w0 := by linarith
  have hwn : ¬ w0 < 0 := not_lt.mpr (le_of_lt hw0)
  have hqpos : (0 : ℚ) < |q| := lt_of_lt_of_le (two_zpow_pos _) hq1
  have ha : (0 : ℚ) < w0 * |q| := mul_pos hw0 hqpos
  have hm1 : mul (fin w0) (fin q) = roundMag (decide (q < 0)) (w0 * |q|) := by
    rw [mul_fin_fin]
    simp [hwn, abs_of_pos hw0]
  have hm2 : mul (fin w0) (fin (2 * q)) = roundMag (decide (q < 0)) (2 * (w0 * |q|)) := by
    rw [mul_fin_fin]
    have e1 : |2 * q| = 2 * |q| := by rw [abs_mul]; norm_num
    have e2 : decide (2 * q < 0) = decide (q < 0) := by
      apply decide_eq_decide.mpr
      constructor <;> intro h <;> linarith
    rw [e1, e2]
    simp only [hwn, decide_False, Bool.false_xor, abs_of_pos hw0]
    congr 1
    ring
  -- the product lies between 2 ^ -1019 and 2 ^ 1022
  have hlo : (2 : ℚ) ^ (-1019 : ℤ) ≤ w0 * |q| := by
    have e : (2 : ℚ) ^ (-1019 : ℤ) = 8 * (2 : ℚ) ^ (-1022 : ℤ) := by
      have : (-1019 : ℤ) = 3 + (-1022) := by norm_num
      rw [this, zpow_add₀ two0]
      norm_num
    rw [e]
    exact mul_le_mul hw1 hq1 (le_of_lt (two_zpow_pos _)) (le_of_lt hw0)
  have hhi : w0 * |q| < (2 : ℚ) ^ (1022 : ℤ) := by
    have e : (2 : ℚ) ^ (1022 : ℤ) = 16 * (2 : ℚ) ^ (1018 : ℤ) := by
      have : (1022 : ℤ) = 4 + 1018 := by norm_num
      rw [this, zpow_add₀ two0]
      norm_num
    rw [e]
    calc w0 * |q| ≤ 16 * |q| := mul_le_mul_of_nonneg_right hw2 (le_of_lt hqpos)
      _ < 16 * (2 : ℚ) ^ (1018 : ℤ) := by linarith
  obtain ⟨hl1, hl2⟩ := log2_range (w0 * |q|) (-1019) 1022 ha hlo hhi
  obtain ⟨v1, hv1, hv1d, hv1lo, hv1hi⟩ :=
    roundMag_double (decide (q < 0)) (w0 * |q|) ha (by omega) (by omega)
  have hv1pos : (0 : ℚ) < v1 := lt_of_lt_of_le (two_zpow_pos _) hv1lo
  -- the quotient by 8
  have ha8 : (0 : ℚ) < v1 / 8 := by positivity
  have hlo8 : (2 : ℚ) ^ (Int.log 2 (w0 * |q|) - 3) ≤ v1 / 8 := by
    rw [zpow_sub₀ two0]
    have : (2 : ℚ) ^ (3 : ℤ) = 8 := by norm_num
    rw [this]
    exact div_le_div_of_nonneg_right hv1lo (by norm_num)
  have hhi8 : v1 / 8 < (2 : ℚ) ^ (Int.log 2 (w0 * |q|) - 1) := by
    have h3 : v1 / 8 ≤ (2 : ℚ) ^ (Int.log 2 (w0 * |q|) - 2) := by
      have e : (2 : ℚ) ^ (Int.log 2 (w0 * |q|) - 2)
          = (2 : ℚ) ^ (Int.log 2 (w0 * |q|) + 1) / 8 := by
        have : Int.log 2 (w0 * |q|) - 2 = Int.log 2 (w0 * |q|) + 1 - 3 := by ring
        rw [this, zpow_sub₀ two0]
        norm_num
      rw [e]
      exact div_le_div_of_nonneg_right hv1hi (by norm_num)
    exact lt_of_le_of_lt h3 ((zpow_lt_zpow_iff_right₀ two).mpr (by omega))
  obtain ⟨hl3, hl4⟩ := log2_range (v1 / 8) _ _ ha8 hlo8 hhi8
  obtain ⟨v2, hv2, hv2d, _, _⟩ :=
    roundMag_double (decide (q < 0)) (v1 / 8) ha8 (by omega) (by omega)
  obtain ⟨w, hw, hwd⟩ := signed_double (decide (q < 0)) v2
  refine ⟨w, ?_, ?_⟩
  · rw [hm1, hv1, div_signed_fin _ v1 8 hv1pos (by norm_num), hv2, hw]
  · rw [hm2, hv1d, div_signed_fin _ (2 * v1) 8 (by linarith) (by norm_num)]
    have e : 2 * v1 / 8 = 2 * (v1 / 8) := by ring
    rw [e, hv2d, hwd]

theorem roundMag_zero (neg : Bool) : roundMag neg 0 = zero neg := by
  simp [roundMag]

/-- A positive integer below `2 ^ 53` is a double. -/
theorem roundMag_natCast (n : ℕ) (h0 : 0 < n) (h1 : n < 2 ^ 53) :
    roundMag false (n : ℚ) = fin (n : ℚ) := by
  have h := roundMag_exact false n 0 h0 h1 (by norm_num) (by norm_num)
  simpa [signed] using h

theorem mul_swap (a b : F64) : mul a b = mul b a := by
  unfold mul
  rw [Bool.or_comm a.isNaN, Bool.or_comm a.isInf, Bool.or_comm a.isZero,
    Bool.xor_comm a.isNeg, mul_comm |a.value|]

theorem add_fin_fin (a b : ℚ) (h : a + b ≠ 0) :
    add (fin a) (fin b) = roundMag (decide (a + b < 0)) |a + b| := by
  simp [add, isNaN, isInf, value, h]

theorem mul_pos_fin (a b : ℚ) (ha : 0 < a) (hb : 0 < b) :
    mul (fin a) (fin b) = roundMag false (a * b) := by
  rw [mul_fin_fin]
  have h1 : ¬ a < 0 := not_lt.mpr (le_of_lt ha)
  have h2 : ¬ b < 0 := not_lt.mpr (le_of_lt hb)
  simp [h1, h2, abs_of_pos ha, abs_of_pos hb]

theorem div_pos_fin (a b : ℚ) (ha : 0 < a) (hb : 0 < b) :
    div (fin a) (fin b) = roundMag false (a / b) :=
  div_signed_fin false a b ha hb

theorem add_pos_fin (a b : ℚ) (ha : 0 ≤ a) (hb : 0 < b) :
    add (fin a) (fin b) = roundMag false (a + b) := by
  have h : 0 < a + b := by linarith
  rw [add_fin_fin a b (ne_of_gt h)]
  have h1 : ¬ a + b < 0 := not_lt.mpr (le_of_lt h)
  simp [h1, abs_of_pos h]

theorem mul_nat (a b : ℕ) (h0 : 0 < a * b) (h1 : a * b < 2 ^ 53) :
    mul (fin (a : ℚ)) (fin (b : ℚ)) = fin ((a * b : ℕ) : ℚ) := by
  have ha : 0 < a := Nat.pos_of_ne_zero (fun h => by simp [h] at h0)
  have hb : 0 < b := Nat.pos_of_ne_zero (fun h => by simp [h] at h0)
  rw [mul_pos_fin _ _ (by exact_mod_cast ha) (by exact_mod_cast hb)]
  have h := roundMag_natCast (a * b) h0 h1
  rw [← h]
  push_cast
  rfl

theorem add_nat (a b : ℕ) (hb : 0 < b) (h1 : a + b < 2 ^ 53) :
    add (fin (a : ℚ)) (fin (b : ℚ)) = fin ((a + b : ℕ) : ℚ) := by
  rw [add_pos_fin _ _ (by exact_mod_cast Nat.zero_le a) (by exact_mod_cast hb)]
  have h := roundMag_natCast (a + b) (by omega) h1
  rw [← h]
  push_cast
  rfl

theorem div_nat (c b : ℕ) (hc : 0 < c) (hb : 0 < b) (h1 : c < 2 ^ 53) :
    div (fin ((c * b : ℕ) : ℚ)) (fin (b : ℚ)) = fin (c : ℚ) := by
  have hbq : (0 : ℚ) < (b : ℚ) := by exact_mod_cast hb
  have hcq : (0 : ℚ) < (c : ℚ) := by exact_mod_cast hc
  have hcb : (0 : ℚ) < ((c * b : ℕ) : ℚ) := by
    push_cast
    exact mul_pos hcq hbq
  rw [div_pos_fin _ _ hcb hbq]
  have e : ((c * b : ℕ) : ℚ) / (b : ℚ) = (c : ℚ) := by
    push_cast
    field_simp
  rw [e]
  exact roundMag_natCast c hc h1

theorem mul_zero_left (b : ℚ) (hb : 0 ≤ b) : mul (fin 0) (fin b) = fin 0 := by
  rw [mul_fin_fin]
  have h2 : ¬ b < 0 := not_lt.mpr hb
  simp [h2, roundMag_zero, zero]

end F64

namespace RenderContext

variable {W : Type}

/-! ## Icon sizes -/

theorem getIconSize_of_base (ctx : RenderContext W) (style kind : String) (w0 h0 : ℚ)
    (hbase : baseIconSize style kind = some (w0, h0))
    (hstyle : ctx.tickStyle = JSVal.str style) :
    ctx.getIconSize (JSVal.str kind) = some (ctx.iconDim w0, ctx.iconDim h0) := by
  unfold baseIconSize at hbase
  by_cases hd : style = "default"
  · subst hd
    simp only [if_true] at hbase
    split at hbase
    · rename_i hk
      simp only [Option.some.injEq, Prod.mk.injEq] at hbase
      obtain ⟨rfl, rfl⟩ := hbase
      rcases hk with rfl | rfl | rfl | rfl <;>
        simp [getIconSize, hstyle, iconSizeDefault]
    · exact absurd hbase (by simp)
  · simp only [hd, if_false] at hbase
    by_cases hh : style = "hypixel"
    · subst hh
      simp only [if_true] at hbase
      by_cases h1 : kind = "questionMark"
      · subst h1
        simp only [if_true, Option.some.injEq, Prod.mk.injEq] at hbase
        obtain ⟨rfl, rfl⟩ := hbase
        simp [getIconSize, hstyle, iconSizeHypixel]
      · simp only [h1, if_false] at hbase
        by_cases h2 : kind = "whiteCheck" ∨ kind = "greenCheck"
        · simp only [h2, if_true, Option.some.injEq, Prod.mk.injEq] at hbase
          obtain ⟨rfl, rfl⟩ := hbase
          rcases h2 with rfl | rfl <;> simp [getIconSize, hstyle, iconSizeHypixel]
        · simp only [h2, if_false] at hbase
          by_cases h3 : kind = "failedRoom"
          · subst h3
            simp only [if_true, Option.some.injEq, Prod.mk.injEq] at hbase
            obtain ⟨rfl, rfl⟩ := hbase
            simp [getIconSize, hstyle, iconSizeHypixel]
          · simp [h3] at hbase
    · simp [hh] at hbase

theorem iconDim_at_eight (ctx : RenderContext W) (w0 : ℚ)
    (hw : w0 = 10 ∨ w0 = 14 ∨ w0 = 16) (h8 : ctx.iconScale = JSVal.num 8) :
    ctx.iconDim w0 = F64.fin w0 := by
  unfold iconDim
  rw [h8]
  simp only [toDouble]
  rcases hw with h | h | h <;> subst h
  · have m := F64.mul_nat 10 8 (by norm_num) (by norm_num)
    have d := F64.div_nat 10 8 (by norm_num) (by norm_num) (by norm_num)
    norm_num at m d
    rw [m, d]
  · have m := F64.mul_nat 14 8 (by norm_num) (by norm_num)
    have d := F64.div_nat 14 8 (by norm_num) (by norm_num) (by norm_num)
    norm_num at m d
    rw [m, d]
  · have m := F64.mul_nat 16 8 (by norm_num) (by norm_num)
    have d := F64.div_nat 16 8 (by norm_num) (by norm_num) (by norm_num)
    norm_num at m d
    rw [m, d]

theorem iconDim_double (ctx ctx2 : RenderContext W) (w0 q : ℚ)
    (hw : w0 = 10 ∨ w0 = 14 ∨ w0 = 16)
    (hq : ctx.iconScale = JSVal.num q) (hq2 : ctx2.iconScale = JSVal.num (2 * q))
    (h1 : (2 : ℚ) ^ (-1022 : ℤ) ≤ |q|) (h2 : |q| < (2 : ℚ) ^ (1018 : ℤ)) :
    ∃ w : ℚ, ctx.iconDim w0 = F64.fin w ∧ ctx2.iconDim w0 = F64.fin (2 * w) := by
  have hw1 : (8 : ℚ) ≤ w0 := by rcases hw with h | h | h <;> subst h <;> norm_num
  have hw2 : w0 ≤ (16 : ℚ) := by rcases hw with h | h | h <;> subst h <;> norm_num
  obtain ⟨w, e1, e2⟩ := F64.mul_div8_double w0 q hw1 hw2 h1 h2
  refine ⟨w, ?_, ?_⟩
  · unfold iconDim
    rw [hq]
    exact e1
  · unfold iconDim
    rw [hq2]
    exact e2

/-- Against C4: under tick style "default" the kind questionMark has size
(2 ^ 1020, 2 ^ 1020) at iconScale 2 ^ 1019 and (Infinity, Infinity) at twice
that iconScale, because 16 * 2 ^ 1020 overflows: the dimensions are not
doubled. -/
theorem getIconSize_doubling_overflows_counterexample :
    largeScaleContext.tickStyle = JSVal.str "default" ∧
    doubledLargeScaleContext.tickStyle = JSVal.str "default" ∧
    largeScaleContext.iconScale = JSVal.num (2 ^ 1019) ∧
    doubledLargeScaleContext.iconScale = JSVal.num (2 * 2 ^ 1019) ∧
    largeScaleContext.getIconSize (JSVal.str "questionMark")
      = some (F64.fin (2 ^ 1020), F64.fin (2 ^ 1020)) ∧
    doubledLargeScaleContext.getIconSize (JSVal.str "questionMark")
      = some (F64.posInf, F64.posInf) ∧
    doubledLargeScaleContext.getIconSize (JSVal.str "questionMark")
      ≠ some (F64.fin (2 * 2 ^ 1020), F64.fin (2 * 2 ^ 1020)) := by
  have hA : largeScaleContext.iconDim 16 = F64.fin (2 ^ 1020) := by
    have hs : largeScaleContext.iconScale = JSVal.num (2 ^ 1019) := rfl
    unfold iconDim
    rw [hs]
    simp only [toDouble]
    rw [F64.mul_pos_fin 16 (2 ^ 1019) (by norm_num) (by positivity)]
    have e1 : (16 : ℚ) * 2 ^ 1019 = ((2 ^ 52 : ℕ) : ℚ) * (2 : ℚ) ^ (971 : ℤ) := by
      norm_num
    rw [e1, F64.roundMag_exact false (2 ^ 52) 971 (by norm_num) (by norm_num) (by norm_num)
      (by norm_num)]
    simp only [F64.signed, Bool.false_eq_true, if_false]
    rw [F64.div_pos_fin _ 8 (by positivity) (by norm_num)]
    have e2 : ((2 ^ 52 : ℕ) : ℚ) * (2 : ℚ) ^ (971 : ℤ) / 8
        = ((2 ^ 52 : ℕ) : ℚ) * (2 : ℚ) ^ (968 : ℤ) := by
      norm_num
    rw [e2, F64.roundMag_exact false (2 ^ 52) 968 (by norm_num) (by norm_num) (by norm_num)
      (by norm_num)]
    simp only [F64.signed, Bool.false_eq_true, if_false]
    norm_num
  have hB : doubledLargeScaleContext.iconDim 16 = F64.posInf := by
    have hs : doubledLargeScaleContext.iconScale = JSVal.num (2 * 2 ^ 1019) := rfl
    unfold iconDim
    rw [hs]
    simp only [toDouble]
    rw [F64.mul_pos_fin 16 (2 * 2 ^ 1019) (by norm_num) (by positivity)]
    rw [F64.roundMag_overflow false _ (by norm_num)]
    simp [F64.div, F64.infinity, F64.isNaN, F64.isInf, F64.isNeg]
  have gA := getIconSize_of_base largeScaleContext "default" "questionMark" 16 16
    (by simp [baseIconSize]) rfl
  have gB := getIconSize_of_base doubledLargeScaleContext "default" "questionMark" 16 16
    (by simp [baseIconSize]) rfl
  rw [hA] at gA
  rw [hB] at gB
  refine ⟨rfl, rfl, rfl, rfl, gA, gB, ?_⟩
  rw [gB]
  simp

/-- C4, amended: for a tick style with a table ("default", "hypixel") and an
icon kind among greenCheck, whiteCheck, failedRoom, questionMark,
`getIconSize(kind)` is (w0 * s / 8, h0 * s / 8), computed in doubles, for the
tabulated base size (w0, h0) and the iconScale s; the tabulated sizes are
(16, 16) for the four kinds under "default" and, under "hypixel", (10, 16) for
questionMark, (10, 10) for whiteCheck and greenCheck, (14, 14) for failedRoom;
at iconScale 8 the result is the base size; and a context with the same tick
style and twice the iconScale gets twice both dimensions when the magnitude of
the iconScale is at least 2 ^ -1022 and below 2 ^ 1018. -/
theorem getIconSize_scales_within_double_range (ctx : RenderContext W) (style kind : String)
    (hstyle : ctx.tickStyle = JSVal.str style)
    (hstyles : style = "default" ∨ style = "hypixel")
    (hkind : kind = "greenCheck" ∨ kind = "whiteCheck" ∨ kind = "failedRoom" ∨
      kind = "questionMark") :
    ∃ w0 h0 : ℚ, baseIconSize style kind = some (w0, h0) ∧
      ctx.getIconSize (JSVal.str kind)
        = some (F64.div (F64.mul (F64.fin w0) (toDouble ctx.iconScale)) (F64.fin 8),
                F64.div (F64.mul (F64.fin h0) (toDouble ctx.iconScale)) (F64.fin 8)) ∧
      (ctx.iconScale = JSVal.num 8 →
        ctx.getIconSize (JSVal.str kind) = some (F64.fin w0, F64.fin h0)) ∧
      (∀ q : ℚ, ctx.iconScale = JSVal.num q →
        (2 : ℚ) ^ (-1022 : ℤ) ≤ |q| → |q| < (2 : ℚ) ^ (1018 : ℤ) →
        ∀ ctx2 : RenderContext W, ctx2.tickStyle = JSVal.str style →
          ctx2.iconScale = JSVal.num (2 * q) →
          ∃ w h : ℚ, ctx.getIconSize (JSVal.str kind) = some (F64.fin w, F64.fin h) ∧
            ctx2.getIconSize (JSVal.str kind) = some (F64.fin (2 * w), F64.fin (2 * h))) ∧
      (style = "default" → (w0, h0) = (16, 16)) ∧
      (style = "hypixel" → kind = "questionMark" → (w0, h0) = (10, 16)) ∧
      (style = "hypixel" → kind = "whiteCheck" ∨ kind = "greenCheck" → (w0, h0) = (10, 10)) ∧
      (style = "hypixel" → kind = "failedRoom" → (w0, h0) = (14, 14)) := by
  have hb : ∃ w0 h0 : ℚ, baseIconSize style kind = some (w0, h0) ∧
      (w0 = 10 ∨ w0 = 14 ∨ w0 = 16) ∧ (h0 = 10 ∨ h0 = 14 ∨ h0 = 16) ∧
      (style = "default" → (w0, h0) = (16, 16)) ∧
      (style = "hypixel" → kind = "questionMark" → (w0, h0) = (10, 16)) ∧
      (style = "hypixel" → kind = "whiteCheck" ∨ kind = "greenCheck" → (w0, h0) = (10, 10)) ∧
      (style = "hypixel" → kind = "failedRoom" → (w0, h0) = (14, 14)) := by
    rcases hstyles with rfl | rfl <;> rcases hkind with rfl | rfl | rfl | rfl <;>
      refine ⟨_, _, rfl, ?_, ?_, ?_, ?_, ?_, ?_⟩ <;> simp
  obtain ⟨w0, h0, hbase, hw, hh, t1, t2, t3, t4⟩ := hb
  have hsize := getIconSize_of_base ctx style kind w0 h0 hbase hstyle
  refine ⟨w0, h0, hbase, hsize, ?_, ?_, t1, t2, t3, t4⟩
  · intro h8
    rw [hsize, iconDim_at_eight ctx w0 hw h8, iconDim_at_eight ctx h0 hh h8]
  · intro q hq hq1 hq2 ctx2 hstyle2 hq22
    obtain ⟨w, ew, ew2⟩ := iconDim_double ctx ctx2 w0 q hw hq hq22 hq1 hq2
    obtain ⟨h, eh, eh2⟩ := iconDim_double ctx ctx2 h0 q hh hq hq22 hq1 hq2
    refine ⟨w, h, ?_, ?_⟩
    · rw [hsize, ew, eh]
    · rw [getIconSize_of_base ctx2 style kind w0 h0 hbase hstyle2, ew2, eh2]

/-- The icon size law on a concrete context: tick style "hypixel", iconScale
12, kind failedRoom. -/
theorem getIconSize_scales_within_double_range_witness :
    hypixelContext.tickStyle = JSVal.str "hypixel" ∧
    ∃ w0 h0 : ℚ, baseIconSize "hypixel" "failedRoom" = some (w0, h0) ∧
      hypixelContext.getIconSize (JSVal.str "failedRoom")
        = some (F64.div (F64.mul (F64.fin w0) (toDouble hypixelContext.iconScale)) (F64.fin 8),
                F64.div (F64.mul (F64.fin h0) (toDouble hypixelContext.iconScale)) (F64.fin 8)) ∧
      (hypixelContext.iconScale = JSVal.num 8 →
        hypixelContext.getIconSize (JSVal.str "failedRoom") = some (F64.fin w0, F64.fin h0)) ∧
      (∀ q : ℚ, hypixelContext.iconScale = JSVal.num q →
        (2 : ℚ) ^ (-1022 : ℤ) ≤ |q| → |q| < (2 : ℚ) ^ (1018 : ℤ) →
        ∀ ctx2 : RenderContext Unit, ctx2.tickStyle = JSVal.str "hypixel" →
          ctx2.iconScale = JSVal.num (2 * q) →
          ∃ w h : ℚ,
            hypixelContext.getIconSize (JSVal.str "failedRoom")
              = some (F64.fin w, F64.fin h) ∧
            ctx2.getIconSize (JSVal.str "failedRoom")
              = some (F64.fin (2 * w), F64.fin (2 * h))) ∧
      ("hypixel" = "default" → (w0, h0) = (16, 16)) ∧
      ("hypixel" = "hypixel" → "failedRoom" = "questionMark" → (w0, h0) = (10, 16)) ∧
      ("hypixel" = "hypixel" → "failedRoom" = "whiteCheck" ∨ "failedRoom" = "greenCheck" →
        (w0, h0) = (10, 10)) ∧
      ("hypixel" = "hypixel" → "failedRoom" = "failedRoom" → (w0, h0) = (14, 14)) :=
  ⟨rfl,
    getIconSize_scales_within_double_range hypixelContext "hypixel" "failedRoom" rfl
      (Or.inr rfl) (Or.inr (Or.inr (Or.inl rfl)))⟩

/-! ## Color tables -/

/-- C5: `colorMap` returns the table `LegalMapColorMap` for "legalmap" and the
table `HypixelColorMap` for "hypixelmap"; these are two different objects and
their entries differ (the colors of SPAWN do); for "teniosmap" it returns the
very object it returns for "hypixelmap". -/
theorem colorMap_legal_differs_tenios_aliases_hypixel
    (ctxL ctxH ctxT : RenderContext W)
    (hL : ctxL.mapStyle = JSVal.str "legalmap")
    (hH : ctxH.mapStyle = JSVal.str "hypixelmap")
    (hT : ctxT.mapStyle = JSVal.str "teniosmap") :
    ctxL.colorMap = some ColorMapRef.LegalMapColorMap ∧
    ctxH.colorMap = some ColorMapRef.HypixelColorMap ∧
    ctxL.colorMap ≠ ctxH.colorMap ∧
    ColorMapRef.LegalMapColorMap.deref ≠ ColorMapRef.HypixelColorMap.deref ∧
    ColorMapRef.LegalMapColorMap.deref.get roomHash.SPAWN = some ⟨20, 133, 0, 255⟩ ∧
    ColorMapRef.HypixelColorMap.deref.get roomHash.SPAWN = some ⟨0, 124, 0, 255⟩ ∧
    ColorMapRef.LegalMapColorMap.deref.get roomHash.SPAWN
      ≠ ColorMapRef.HypixelColorMap.deref.get roomHash.SPAWN ∧
    ctxT.colorMap = ctxH.colorMap := by
  have cL : ctxL.colorMap = some ColorMapRef.LegalMapColorMap := by simp [colorMap, hL]
  have cH : ctxH.colorMap = some ColorMapRef.HypixelColorMap := by simp [colorMap, hH]
  have cT : ctxT.colorMap = some ColorMapRef.HypixelColorMap := by simp [colorMap, hT]
  refine ⟨cL, cH, ?_, by decide, by decide, by decide, by decide, ?_⟩
  · rw [cL, cH]; decide
  · rw [cT, cH]

/-- The color table selection on three concrete contexts, one per map style. -/
theorem colorMap_legal_differs_tenios_aliases_hypixel_witness :
    legalContext.colorMap ≠ hypixelContext.colorMap ∧
    teniosContext.colorMap = hypixelContext.colorMap :=
  ⟨(colorMap_legal_differs_tenios_aliases_hypixel legalContext hypixelContext teniosContext
      rfl rfl rfl).2.2.1,
   (colorMap_legal_differs_tenios_aliases_hypixel legalContext hypixelContext teniosContext
      rfl rfl rfl).2.2.2.2.2.2.2⟩

/-! ## Cache and teardown -/

/-- C6, where the code departs from it: on a context whose `image` is an image
that has a texture, `destroy()` throws a ReferenceError at its first statement
(the key `m.deleteGlTexture` names an identifier the file does not bind); the
image is still present afterwards and no hook has run. When `image` is `null`,
`undefined` or an image without a texture, `destroy()` returns normally and
leaves `image` `undefined`. -/
theorem destroy_with_texture_throws_before_clearing (ctx : RenderContext W)
    (release : W → W) (w : W) :
    (({ ctx with image := ImageRef.image (some release) } : RenderContext W).destroy w).error
      = some JSError.referenceError ∧
    (({ ctx with image := ImageRef.image (some release) } : RenderContext W).destroy w).ctx.image
      = ImageRef.image (some release) ∧
    (({ ctx with image := ImageRef.image (some release) }
      : RenderContext W).destroy w).ctx.image.present = true ∧
    (({ ctx with image := ImageRef.image (some release) } : RenderContext W).destroy w).world
      = w ∧
    (∀ img : ImageRef W,
      img = ImageRef.null ∨ img = ImageRef.undefined ∨ img = ImageRef.image none →
      (({ ctx with image := img } : RenderContext W).destroy w).error = none ∧
      (({ ctx with image := img } : RenderContext W).destroy w).ctx.image
        = ImageRef.undefined) := by
  refine ⟨rfl, rfl, rfl, rfl, ?_⟩
  intro img himg
  rcases himg with h | h | h <;> subst h <;> exact ⟨rfl, rfl⟩

/-- The failing call on a concrete context: the image has a texture and the
hook "A" is registered; the log of calls stays empty. -/
theorem destroy_on_textured_context :
    (texturedContext.destroy []).error = some JSError.referenceError ∧
    (texturedContext.destroy []).ctx.image.present = true ∧
    (texturedContext.destroy []).world = [] :=
  ⟨rfl, rfl, rfl⟩

/-- C7: whatever `imageLastUpdate` was, after `markReRender()` it is 0, the
value it has in a context just constructed, and the image, the settings, the
destroy hooks, the paddings and the border width are what they were. -/
theorem markReRender_resets_imageLastUpdate_only (ctx : RenderContext W) :
    ctx.markReRender.imageLastUpdate = 0 ∧
    (∀ s : JSObject, ∃ ctx0 : RenderContext W,
      RenderContext.new (JSArg.obj s) = Except.ok ctx0 ∧
      ctx0.imageLastUpdate = ctx.markReRender.imageLastUpdate) ∧
    ctx.markReRender.image = ctx.image ∧
    ctx.markReRender.settings = ctx.settings ∧
    ctx.markReRender.onDestroys = ctx.onDestroys ∧
    ctx.markReRender.paddingTop = ctx.paddingTop ∧
    ctx.markReRender.paddingLeft = ctx.paddingLeft ∧
    ctx.markReRender.borderWidth = ctx.borderWidth :=
  ⟨rfl, fun s => ⟨_, new_obj s, rfl⟩, rfl, rfl, rfl, rfl, rfl, rfl⟩

/-! ## The settings are always complete -/

theorem orDefault_ne_undefined (v d : JSVal) (hd : d ≠ JSVal.undefined) :
    orDefault v d ≠ JSVal.undefined := by
  unfold orDefault
  split
  · exact hd
  · assumption

theorem settingsComplete_of_settings (ctx : RenderContext W) (a : JSArg)
    (h : ctx.settings = addMissingFrom a) : SettingsComplete ctx := by
  unfold SettingsComplete mapStyle posX posY size headScale iconScale tickStyle puzzleNames
    headBorder playerNames currentRoomInfo scoreInfoUnderMap forcePaul devInfo
  rw [h]
  refine ⟨?_, ?_, ?_, ?_, ?_, ?_, ?_, ?_, ?_, ?_, ?_, ?_, ?_, ?_⟩ <;>
    exact orDefault_ne_undefined _ _ (by simp)

theorem setSettings_ok_settings (ctx ctx1 : RenderContext W) (a : JSArg)
    (h : ctx.setSettings a = Except.ok ctx1) :
    ctx1 = { ctx with settings := addMissingFrom a } := by
  unfold setSettings at h
  split at h
  · exact absurd h (by simp)
  · rename_i s hs
    unfold addMissing at hs
    split at hs
    · exact absurd hs (by simp)
    · exact absurd hs (by simp)
    · simp only [Except.ok.injEq] at hs h
      rw [← h, ← hs]

/-- C8: the predicate "each of the fourteen settings fields has a value, none
is undefined" holds for a context constructed from any settings record, holds
after `setSettings` with any record (and after any `setSettings` call that
returns), and is preserved by `markReRender`, `onDestroy` and `destroy`. -/
theorem settings_complete_invariant :
    (∀ s : JSObject, ∃ ctx0 : RenderContext W,
      RenderContext.new (JSArg.obj s) = Except.ok ctx0 ∧ SettingsComplete ctx0) ∧
    (∀ (ctx : RenderContext W) (s : JSObject), ∃ ctx1 : RenderContext W,
      ctx.setSettings (JSArg.obj s) = Except.ok ctx1 ∧ SettingsComplete ctx1) ∧
    (∀ (ctx ctx1 : RenderContext W) (a : JSArg),
      ctx.setSettings a = Except.ok ctx1 → SettingsComplete ctx1) ∧
    (∀ ctx : RenderContext W, SettingsComplete ctx → SettingsComplete ctx.markReRender) ∧
    (∀ (ctx : RenderContext W) (callback : W → W),
      SettingsComplete ctx → SettingsComplete (ctx.onDestroy callback)) ∧
    (∀ (ctx : RenderContext W) (w : W),
      SettingsComplete ctx → SettingsComplete (ctx.destroy w).1) := by
  refine ⟨?_, ?_, ?_, ?_, ?_, ?_⟩
  · intro s
    exact ⟨_, new_obj s, settingsComplete_of_settings _ (JSArg.obj s) rfl⟩
  · intro ctx s
    exact ⟨_, setSettings_obj ctx s, settingsComplete_of_settings _ (JSArg.obj s) rfl⟩
  · intro ctx ctx1 a h
    have e := setSettings_ok_settings ctx ctx1 a h
    exact settingsComplete_of_settings ctx1 a (by rw [e])
  · intro ctx h
    exact h
  · intro ctx callback h
    exact h
  · intro ctx w h
    have hs : (ctx.destroy w).1.settings = ctx.settings := by
      unfold destroy
      split <;> rfl
    unfold SettingsComplete mapStyle posX posY size headScale iconScale tickStyle puzzleNames
      headBorder playerNames currentRoomInfo scoreInfoUnderMap forcePaul devInfo at h ⊢
    rw [hs]
    exact h

/-! ## What `setSettings` leaves alone -/

/-- C9: for every context and every settings record `s`, `setSettings(s)`
returns a context in which `image`, `imageLastUpdate`, `paddingTop`,
`paddingLeft`, `borderWidth` and the destroy hooks are what they were: only
the settings change, and the cached image is not marked for a rebuild. -/
theorem setSettings_changes_only_settings (ctx : RenderContext W) (s : JSObject) :
    ∃ ctx1 : RenderContext W, ctx.setSettings (JSArg.obj s) = Except.ok ctx1 ∧
      ctx1.image = ctx.image ∧
      ctx1.imageLastUpdate = ctx.imageLastUpdate ∧
      ctx1.paddingTop = ctx.paddingTop ∧
      ctx1.paddingLeft = ctx.paddingLeft ∧
      ctx1.borderWidth = ctx.borderWidth ∧
      ctx1.onDestroys = ctx.onDestroys :=
  ⟨_, setSettings_obj ctx s, rfl, rfl, rfl, rfl, rfl, rfl⟩

/-- C10: `setSettings` replaces the settings, it does not merge: for all
records `a` and `b`, the context after `setSettings(a)` then `setSettings(b)`
is the context after `setSettings(b)` alone, so a field that `b` does not
have reads as its documented default whatever `a` gave it. -/
theorem setSettings_replaces_wholesale (ctx : RenderContext W) (a b : JSObject) :
    ∃ ctxA ctxAB ctxB : RenderContext W,
      ctx.setSettings (JSArg.obj a) = Except.ok ctxA ∧
      ctxA.setSettings (JSArg.obj b) = Except.ok ctxAB ∧
      ctx.setSettings (JSArg.obj b) = Except.ok ctxB ∧
      ctxAB = ctxB ∧
      (∀ k d, (k, d) ∈ documentedDefaults → b.lookup k = none →
        ctxAB.settings.getProp k = d) := by
  refine ⟨_, _, _, setSettings_obj ctx a, setSettings_obj _ b, setSettings_obj ctx b, rfl, ?_⟩
  intro k d hkd hb
  simp only [documentedDefaults, List.mem_cons, Prod.mk.injEq, List.mem_singleton,
    List.not_mem_nil, or_false] at hkd
  rcases hkd with h | h | h | h | h | h | h | h | h | h | h | h | h | h <;>
    obtain ⟨rfl, rfl⟩ := h <;>
    simp [addMissingFrom, JSArg.read, JSObject.getProp, List.lookup, orDefault, hb]

/-! ## Unrecognised keys -/

theorem getProp_eq_undefined_of_not_mem_keys (o : JSObject) (k : String)
    (h : k ∉ o.keys) : o.getProp k = JSVal.undefined := by
  induction o with
  | nil => rfl
  | cons e rest ih =>
    obtain ⟨k1, v1⟩ := e
    simp only [JSObject.keys, List.map_cons, List.mem_cons, not_or] at h
    have hne : (k == k1) = false := by simpa using h.1
    have hrest : JSObject.getProp rest k = JSVal.undefined := ih h.2
    simp only [JSObject.getProp, List.lookup, hne] at hrest ⊢
    exact hrest

/-- C11: for every input record, whatever other keys it carries, the record
`addMissing` produces, which `setSettings` stores, has exactly the fourteen
recognised keys, each once: a key that is not a settings name is not a key of
the result and reads `undefined` there, and two inputs that agree on the
fourteen recognised names produce the same record, so the other keys of the
input have no effect on any recognised key. -/
theorem addMissing_keeps_exactly_recognised_keys (s s2 : JSObject)
    (hagree : ∀ k ∈ settingsKeys, s.getProp k = s2.getProp k) :
    ∃ r : JSObject, addMissing (JSArg.obj s) = Except.ok r ∧
      r.keys = settingsKeys ∧
      r.keys.Nodup ∧
      (∀ k, k ∉ settingsKeys → k ∉ r.keys ∧ r.getProp k = JSVal.undefined) ∧
      (∀ ctx : RenderContext W, ∃ ctx1 : RenderContext W,
        ctx.setSettings (JSArg.obj s) = Except.ok ctx1 ∧ ctx1.settings = r) ∧
      addMissing (JSArg.obj s2) = Except.ok r := by
  have hkeys : (addMissingFrom (JSArg.obj s)).keys = settingsKeys := rfl
  refine ⟨addMissingFrom (JSArg.obj s), rfl, hkeys, ?_, ?_, ?_, ?_⟩
  · rw [hkeys]
    simp [settingsKeys]
  · intro k hk
    have hk2 : k ∉ (addMissingFrom (JSArg.obj s)).keys := by rw [hkeys]; exact hk
    exact ⟨hk2, getProp_eq_undefined_of_not_mem_keys _ k hk2⟩
  · intro ctx
    exact ⟨_, setSettings_obj ctx s, rfl⟩
  · have h1 := hagree "mapStyle" (by simp [settingsKeys])
    have h2 := hagree "posX" (by simp [settingsKeys])
    have h3 := hagree "posY" (by simp [settingsKeys])
    have h4 := hagree "size" (by simp [settingsKeys])
    have h5 := hagree "headScale" (by simp [settingsKeys])
    have h6 := hagree "iconScale" (by simp [settingsKeys])
    have h7 := hagree "tickStyle" (by simp [settingsKeys])
    have h8 := hagree "puzzleNames" (by simp [settingsKeys])
    have h9 := hagree "headBorder" (by simp [settingsKeys])
    have h10 := hagree "playerNames" (by simp [settingsKeys])
    have h11 := hagree "currentRoomInfo" (by simp [settingsKeys])
    have h12 := hagree "scoreInfoUnderMap" (by simp [settingsKeys])
    have h13 := hagree "forcePaul" (by simp [settingsKeys])
    have h14 := hagree "devInfo" (by simp [settingsKeys])
    simp only [addMissing_obj, addMissingFrom, JSArg.read, h1, h2, h3, h4, h5, h6, h7, h8,
      h9, h10, h11, h12, h13, h14]

/-- Two concrete records that differ only by the key "zoom" are normalised to
the same record of fourteen keys. -/
theorem addMissing_keeps_exactly_recognised_keys_witness :
    (∀ k ∈ settingsKeys, recordWithExtraKey.getProp k = recordWithoutExtraKey.getProp k) ∧
    ∃ r : JSObject, addMissing (JSArg.obj recordWithExtraKey) = Except.ok r ∧
      r.keys = settingsKeys ∧
      r.keys.Nodup ∧
      (∀ k, k ∉ settingsKeys → k ∉ r.keys ∧ r.getProp k = JSVal.undefined) ∧
      (∀ ctx : RenderContext Unit, ∃ ctx1 : RenderContext Unit,
        ctx.setSettings (JSArg.obj recordWithExtraKey) = Except.ok ctx1 ∧
        ctx1.settings = r) ∧
      addMissing (JSArg.obj recordWithoutExtraKey) = Except.ok r :=
  have hagree : ∀ k ∈ settingsKeys,
      recordWithExtraKey.getProp k = recordWithoutExtraKey.getProp k := by
    intro k hk
    simp only [settingsKeys, List.mem_cons, List.mem_singleton, List.not_mem_nil,
      or_false] at hk
    rcases hk with h | h | h | h | h | h | h | h | h | h | h | h | h | h <;> subst h <;> rfl
  ⟨hagree, addMissing_keeps_exactly_recognised_keys recordWithExtraKey recordWithoutExtraKey
    hagree⟩

/-! ## Tick images -/

/-- C12: `getImage(kind)` takes its table from `tickStyle`: under "default" it
returns the entry of `LegalMapTicks` for the kind, under "hypixel" the entry
of `HypixelTicksOld`; for each of greenCheck, whiteCheck, failedRoom and
questionMark both tables have an entry, and the two entries differ, in the
file name and in the address. -/
theorem getImage_selects_table_by_tickStyle (ctxD ctxH : RenderContext W)
    (hD : ctxD.tickStyle = JSVal.str "default")
    (hH : ctxH.tickStyle = JSVal.str "hypixel") :
    (∀ kind : String, ctxD.getImage (JSVal.str kind) = LegalMapTicks.get kind) ∧
    (∀ kind : String, ctxH.getImage (JSVal.str kind) = HypixelTicksOld.get kind) ∧
    (∀ kind ∈ iconKinds, ∃ a b : ImageAsset,
      ctxD.getImage (JSVal.str kind) = some a ∧
      ctxH.getImage (JSVal.str kind) = some b ∧
      a ≠ b ∧ a.file ≠ b.file ∧ a.url ≠ b.url) := by
  have eD : ∀ kind : String, ctxD.getImage (JSVal.str kind) = LegalMapTicks.get kind := by
    intro kind
    simp [getImage, hD]
  have eH : ∀ kind : String, ctxH.getImage (JSVal.str kind) = HypixelTicksOld.get kind := by
    intro kind
    simp [getImage, hH]
  refine ⟨eD, eH, ?_⟩
  intro kind hkind
  rw [eD, eH]
  simp only [iconKinds, List.mem_cons, List.mem_singleton, List.not_mem_nil, or_false] at hkind
  rcases hkind with h | h | h | h <;> subst h
  · exact ⟨⟨"BloomMapGreenCheck.png", "https://i.imgur.com/GQfTfmp.png"⟩,
      ⟨"greenCheckVanilla.png", "https://i.imgur.com/h2WM1LO.png"⟩,
      by decide, by decide, by decide, by decide, by decide⟩
  · exact ⟨⟨"BloomMapWhiteCheck.png", "https://i.imgur.com/9cZ28bJ.png"⟩,
      ⟨"whiteCheckVanilla.png", "https://i.imgur.com/hwEAcnI.png"⟩,
      by decide, by decide, by decide, by decide, by decide⟩
  · exact ⟨⟨"BloomMapFailedRoom.png", "https://i.imgur.com/qAb4O9H.png"⟩,
      ⟨"failedRoomVanilla.png", "https://i.imgur.com/WqW69z3.png"⟩,
      by decide, by decide, by decide, by decide, by decide⟩
  · exact ⟨⟨"BloomMapQuestionMark.png", "https://i.imgur.com/kp92Inw.png"⟩,
      ⟨"questionMarkVanilla.png", "https://i.imgur.com/1jyxH9I.png"⟩,
      by decide, by decide, by decide, by decide, by decide⟩

/-- The selection of the tick table on two concrete contexts, one with tick
style "default" and one with "hypixel". -/
theorem getImage_selects_table_by_tickStyle_witness :
    legalContext.getImage (JSVal.str "whiteCheck") = LegalMapTicks.get "whiteCheck" ∧
    hypixelContext.getImage (JSVal.str "whiteCheck") = HypixelTicksOld.get "whiteCheck" :=
  ⟨(getImage_selects_table_by_tickStyle legalContext hypixelContext rfl rfl).1 "whiteCheck",
   (getImage_selects_table_by_tickStyle legalContext hypixelContext rfl rfl).2.1 "whiteCheck"⟩

/-! ## Room types and color tables -/

theorem JSMap_get_isSome_iff {κ ν : Type} [DecidableEq κ] (m : JSMap κ ν) (k : κ) :
    (m.get k).isSome = true ↔ k ∈ JSMapKeys m := by
  unfold JSMap.get JSMapKeys
  induction m.entries with
  | nil => simp
  | cons e rest ih =>
    by_cases h : e.1 = k
    · simp [List.find?_cons, h]
    · have h2 : ¬ k = e.1 := fun hk => h hk.symm
      simp only [List.find?_cons, h, decide_False, List.map_cons, List.mem_cons, h2,
        false_or]
      exact ih

theorem colorMap_keys (ref : ColorMapRef) :
    JSMapKeys ref.deref = [0, 1, 9, 2, 3, 4, 5, 7, 6, 8] := by
  cases ref <;> rfl

/-- C13: `roomHash` numbers the ten room types SPAWN 0, NORMAL 1, PUZZLE 2,
MINIBOSS 3, FAIRY 4, BLOOD 5, UNKNOWN 6, TRAP 7, BLACK 8, NORMAL_CONNECTION 9;
each of the two color tables has ten keys, one per room type and no other, so
for every supported map style `colorMap` is a table and indexing it by any of
the ten room types yields a color. -/
theorem colorMaps_cover_exactly_the_room_types (ctx : RenderContext W)
    (hstyle : ctx.mapStyle = JSVal.str "legalmap" ∨ ctx.mapStyle = JSVal.str "hypixelmap" ∨
      ctx.mapStyle = JSVal.str "teniosmap") :
    roomHash = [("SPAWN", 0), ("NORMAL", 1), ("PUZZLE", 2), ("MINIBOSS", 3), ("FAIRY", 4),
      ("BLOOD", 5), ("UNKNOWN", 6), ("TRAP", 7), ("BLACK", 8), ("NORMAL_CONNECTION", 9)] ∧
    (∀ ref : ColorMapRef,
      (JSMapKeys ref.deref).length = 10 ∧ (JSMapKeys ref.deref).Nodup ∧
      (∀ k : Nat, (ref.deref.get k).isSome = true ↔ k ∈ roomTypes)) ∧
    (∃ ref : ColorMapRef, ctx.colorMap = some ref ∧
      ∀ rt ∈ roomTypes, ∃ c : Color, ref.deref.get rt = some c) := by
  have hcover : ∀ (ref : ColorMapRef) (k : Nat),
      (ref.deref.get k).isSome = true ↔ k ∈ roomTypes := by
    intro ref k
    rw [JSMap_get_isSome_iff, colorMap_keys]
    simp only [roomTypes, roomHash, List.map_cons, List.map_nil, List.mem_cons,
      List.mem_singleton, List.not_mem_nil, or_false]
    omega
  refine ⟨rfl, ?_, ?_⟩
  · intro ref
    refine ⟨?_, ?_, hcover ref⟩
    · rw [colorMap_keys]; rfl
    · rw [colorMap_keys]; decide
  · have hex : ∃ ref : ColorMapRef, ctx.colorMap = some ref := by
      rcases hstyle with h | h | h <;> simp [colorMap, h]
    obtain ⟨ref, href⟩ := hex
    refine ⟨ref, href, ?_⟩
    intro rt hrt
    exact Option.isSome_iff_exists.mp ((hcover ref rt).mpr hrt)

/-- The color of each room type on a concrete context of style "teniosmap". -/
theorem colorMaps_cover_exactly_the_room_types_witness :
    ∃ ref : ColorMapRef, teniosContext.colorMap = some ref ∧
      ∀ rt ∈ roomTypes, ∃ c : Color, ref.deref.get rt = some c :=
  (colorMaps_cover_exactly_the_room_types teniosContext (Or.inr (Or.inr rfl))).2.2

/-! ## Map dimensions -/

/-- C14: `getMapDimensions()` returns the record with the four keys x, y,
size, headScale, holding the current `posX`, `posY`, `size` and `headScale`;
for a context constructed from the empty record it is
{x: 0, y: 0, size: 100, headScale: 8}. -/
theorem getMapDimensions_reads_settings (ctx : RenderContext W) :
    ctx.getMapDimensions.keys = ["x", "y", "size", "headScale"] ∧
    ctx.getMapDimensions.getProp "x" = ctx.posX ∧
    ctx.getMapDimensions.getProp "y" = ctx.posY ∧
    ctx.getMapDimensions.getProp "size" = ctx.size ∧
    ctx.getMapDimensions.getProp "headScale" = ctx.headScale ∧
    (∃ ctx0 : RenderContext W, RenderContext.new (JSArg.obj []) = Except.ok ctx0 ∧
      ctx0.getMapDimensions
        = [("x", JSVal.num 0), ("y", JSVal.num 0), ("size", JSVal.num 100),
           ("headScale", JSVal.num 8)]) :=
  ⟨rfl, rfl, rfl, rfl, rfl, _, new_obj [], rfl⟩

/-! ## Unrecognised kinds and styles -/

theorem tickTable_keys :
    JSMapKeys LegalMapTicks = iconKinds ∧ JSMapKeys HypixelTicksOld = iconKinds :=
  ⟨rfl, rfl⟩

theorem tickTable_get_none (t : String) (ht : t ∉ iconKinds) :
    LegalMapTicks.get t = none ∧ HypixelTicksOld.get t = none := by
  constructor
  · have h := (JSMap_get_isSome_iff LegalMapTicks t).not.mpr (by rw [tickTable_keys.1]; exact ht)
    simpa using h
  · have h := (JSMap_get_isSome_iff HypixelTicksOld t).not.mpr
      (by rw [tickTable_keys.2]; exact ht)
    simpa using h

theorem getImage_none_of_unrecognised (ctx : RenderContext W) (type : JSVal)
    (htype : ∀ k ∈ iconKinds, type ≠ JSVal.str k) : ctx.getImage type = none := by
  have hget : ∀ t : String, type = JSVal.str t →
      LegalMapTicks.get t = none ∧ HypixelTicksOld.get t = none := by
    intro t ht
    apply tickTable_get_none
    intro hmem
    exact htype t hmem ht
  unfold getImage
  split
  · split
    · rename_i t
      exact (hget t rfl).1
    · rfl
  · split
    · rename_i t
      exact (hget t rfl).2
    · rfl
  · rfl

theorem iconSize_none_of_unrecognised (ctx : RenderContext W) (type : JSVal)
    (htype : ∀ k ∈ iconKinds, type ≠ JSVal.str k) :
    ctx.iconSizeDefault type = none ∧ ctx.iconSizeHypixel type = none := by
  have q1 : type ≠ JSVal.str "questionMark" := htype _ (by simp [iconKinds])
  have q2 : type ≠ JSVal.str "whiteCheck" := htype _ (by simp [iconKinds])
  have q3 : type ≠ JSVal.str "greenCheck" := htype _ (by simp [iconKinds])
  have q4 : type ≠ JSVal.str "failedRoom" := htype _ (by simp [iconKinds])
  constructor
  · unfold iconSizeDefault
    split
    · exact absurd rfl q1
    · exact absurd rfl q2
    · exact absurd rfl q3
    · exact absurd rfl q4
    · rfl
  · unfold iconSizeHypixel
    split
    · exact absurd rfl q1
    · exact absurd rfl q2
    · exact absurd rfl q3
    · exact absurd rfl q4
    · rfl

theorem getIconSize_none_of_unrecognised (ctx : RenderContext W) (type : JSVal)
    (htype : ∀ k ∈ iconKinds, type ≠ JSVal.str k) : ctx.getIconSize type = none := by
  obtain ⟨hd, hh⟩ := iconSize_none_of_unrecognised ctx type htype
  unfold getIconSize
  split
  · rw [hd, hh]
  · exact hh
  · rfl

/-- Against C15: under the default settings the kind "star", which is none of
the four icon kinds, makes `getImage` and `getIconSize` both return
`undefined`; the calls return normally and nothing is flagged. -/
theorem unrecognised_kind_returns_silently_counterexample :
    "star" ∉ iconKinds ∧
    legalContext.getImage (JSVal.str "star") = none ∧
    legalContext.getIconSize (JSVal.str "star") = none := by
  refine ⟨by decide, ?_, ?_⟩
  · apply getImage_none_of_unrecognised
    intro k hk
    simp only [iconKinds, List.mem_cons, List.mem_singleton, List.not_mem_nil, or_false] at hk
    rcases hk with h | h | h | h <;> subst h <;> decide
  · apply getIconSize_none_of_unrecognised
    intro k hk
    simp only [iconKinds, List.mem_cons, List.mem_singleton, List.not_mem_nil, or_false] at hk
    rcases hk with h | h | h | h <;> subst h <;> decide

/-- C15, amended: for every context, whatever its tick style, and every kind
that is none of greenCheck, whiteCheck, failedRoom, questionMark, `getImage`
and `getIconSize` both return `undefined`, without raising an error. -/
theorem unrecognised_kind_yields_undefined (ctx : RenderContext W) (type : JSVal)
    (htype : ∀ k ∈ iconKinds, type ≠ JSVal.str k) :
    ctx.getImage type = none ∧ ctx.getIconSize type = none :=
  ⟨getImage_none_of_unrecognised ctx type htype,
   getIconSize_none_of_unrecognised ctx type htype⟩

/-- The kind "star" on a concrete context of tick style "hypixel". -/
theorem unrecognised_kind_yields_undefined_witness :
    (∀ k ∈ iconKinds, JSVal.str "star" ≠ JSVal.str k) ∧
    hypixelContext.getImage (JSVal.str "star") = none ∧
    hypixelContext.getIconSize (JSVal.str "star") = none :=
  have hstar : ∀ k ∈ iconKinds, JSVal.str "star" ≠ JSVal.str k := by
    intro k hk
    simp only [iconKinds, List.mem_cons, List.mem_singleton, List.not_mem_nil, or_false] at hk
    rcases hk with h | h | h | h <;> subst h <;> decide
  ⟨hstar, unrecognised_kind_yields_undefined hypixelContext (JSVal.str "star") hstar⟩

theorem setSettings_stores_mapStyle (ctx0 : RenderContext W) (v : JSVal) (rest : JSObject)
    (hv : v ≠ JSVal.undefined) :
    ∃ ctx1 : RenderContext W,
      ctx0.setSettings (JSArg.obj (("mapStyle", v) :: rest)) = Except.ok ctx1 ∧
      ctx1.mapStyle = v := by
  refine ⟨_, setSettings_obj ctx0 _, ?_⟩
  simp [mapStyle, addMissingFrom, JSArg.read, JSObject.getProp, List.lookup, orDefault, hv]

theorem setSettings_stores_tickStyle (ctx0 : RenderContext W) (v : JSVal) (rest : JSObject)
    (hv : v ≠ JSVal.undefined) :
    ∃ ctx1 : RenderContext W,
      ctx0.setSettings (JSArg.obj (("tickStyle", v) :: rest)) = Except.ok ctx1 ∧
      ctx1.tickStyle = v := by
  refine ⟨_, setSettings_obj ctx0 _, ?_⟩
  simp [tickStyle, addMissingFrom, JSArg.read, JSObject.getProp, List.lookup, orDefault, hv]

/-- C16: when `mapStyle` is a value other than "legalmap", "hypixelmap" and
"teniosmap", the getters `roomSize`, `roomGap`, `doorWidth` and `colorMap`
each return `undefined`, without an error, and `blockSize`, the sum of two
`undefined`, is not a number; `setSettings` stores such a value as given
(every value but `undefined`, which it replaces by the default). -/
theorem unsupported_mapStyle_yields_undefined (ctx : RenderContext W) (v : JSVal)
    (hv : ctx.mapStyle = v)
    (h1 : v ≠ JSVal.str "legalmap") (h2 : v ≠ JSVal.str "hypixelmap")
    (h3 : v ≠ JSVal.str "teniosmap") :
    ctx.roomSize = JSVal.undefined ∧
    ctx.roomGap = JSVal.undefined ∧
    ctx.doorWidth = JSVal.undefined ∧
    ctx.colorMap = none ∧
    ctx.blockSize = none ∧
    (v ≠ JSVal.undefined → ∀ (ctx0 : RenderContext W) (rest : JSObject),
      ∃ ctx1 : RenderContext W,
        ctx0.setSettings (JSArg.obj (("mapStyle", v) :: rest)) = Except.ok ctx1 ∧
        ctx1.mapStyle = v) := by
  subst hv
  have hsize : ctx.roomSize = JSVal.undefined := by
    unfold roomSize
    split
    · rename_i h; exact absurd h h1
    · rename_i h; exact absurd h h2
    · rename_i h; exact absurd h h3
    · rfl
  have hgap : ctx.roomGap = JSVal.undefined := by
    unfold roomGap
    split
    · rename_i h; exact absurd h h1
    · rename_i h; exact absurd h h2
    · rename_i h; exact absurd h h3
    · rfl
  have hdoor : ctx.doorWidth = JSVal.undefined := by
    unfold doorWidth
    split
    · rename_i h; exact absurd h h1
    · rename_i h; exact absurd h h2
    · rename_i h; exact absurd h h3
    · rfl
  have hcolor : ctx.colorMap = none := by
    unfold colorMap
    split
    · rename_i h; exact absurd h h1
    · rename_i h; exact absurd h h2
    · rename_i h; exact absurd h h3
    · rfl
  refine ⟨hsize, hgap, hdoor, hcolor, ?_, ?_⟩
  · simp [blockSize, hsize, hgap, geometryOperand, numAdd]
  · intro hne ctx0 rest
    exact setSettings_stores_mapStyle ctx0 _ rest hne

/-- The map style "vanilla" on a concrete context. -/
theorem unsupported_mapStyle_yields_undefined_witness :
    unsupportedContext.mapStyle = JSVal.str "vanilla" ∧
    unsupportedContext.roomSize = JSVal.undefined ∧
    unsupportedContext.colorMap = none ∧
    unsupportedContext.blockSize = none :=
  have h := unsupported_mapStyle_yields_undefined unsupportedContext (JSVal.str "vanilla") rfl
    (by decide) (by decide) (by decide)
  ⟨rfl, h.1, h.2.2.2.1, h.2.2.2.2.1⟩

/-- C17: `setSettings` accepts the tick style "secrets" and stores it as
given, yet no table belongs to it: with `tickStyle` "secrets", `getImage` and
`getIconSize` return `undefined` for every kind, the four recognised kinds
greenCheck, whiteCheck, failedRoom and questionMark included. -/
theorem secrets_tickStyle_has_no_table (ctx : RenderContext W)
    (hstyle : ctx.tickStyle = JSVal.str "secrets") :
    (∀ type : JSVal, ctx.getImage type = none ∧ ctx.getIconSize type = none) ∧
    (∀ kind ∈ iconKinds,
      ctx.getImage (JSVal.str kind) = none ∧ ctx.getIconSize (JSVal.str kind) = none) ∧
    (∀ (ctx0 : RenderContext W) (rest : JSObject), ∃ ctx1 : RenderContext W,
      ctx0.setSettings (JSArg.obj (("tickStyle", JSVal.str "secrets") :: rest))
        = Except.ok ctx1 ∧
      ctx1.tickStyle = JSVal.str "secrets" ∧
      ∀ type : JSVal, ctx1.getImage type = none ∧ ctx1.getIconSize type = none) := by
  have hall : ∀ c : RenderContext W, c.tickStyle = JSVal.str "secrets" →
      ∀ type : JSVal, c.getImage type = none ∧ c.getIconSize type = none := by
    intro c hc type
    constructor
    · simp [getImage, hc]
    · simp [getIconSize, hc]
  refine ⟨hall ctx hstyle, fun kind _ => hall ctx hstyle (JSVal.str kind), ?_⟩
  intro ctx0 rest
  obtain ⟨ctx1, hset, htick⟩ :=
    setSettings_stores_tickStyle ctx0 (JSVal.str "secrets") rest (by decide)
  exact ⟨ctx1, hset, htick, hall ctx1 htick⟩

/-- The tick style "secrets" on a concrete context, for a recognised kind. -/
theorem secrets_tickStyle_has_no_table_witness :
    unsupportedContext.tickStyle = JSVal.str "secrets" ∧
    unsupportedContext.getImage (JSVal.str "greenCheck") = none ∧
    unsupportedContext.getIconSize (JSVal.str "greenCheck") = none :=
  ⟨rfl, (secrets_tickStyle_has_no_table unsupportedContext rfl).1 (JSVal.str "greenCheck")⟩

/-! ## A second `destroy` -/

/-- C18, where the code departs from it: on a context whose `image` is an
image that has a texture, each of two `destroy()` calls throws a ReferenceError
at its first statement, so no hook runs at all and the image is still present
after the second call. When `image` is `null`, `undefined` or an image without
a texture, the two calls return normally, run the hooks h1..hn in order and
then h1..hn in order again (the list is not emptied and there is no guard) and
leave `image` `undefined`; with hooks that append their identifier, on a new
context, the log grows by the sequence of identifiers twice. -/
theorem destroy_twice_with_texture_runs_no_hook {ι : Type} (ctx : RenderContext W)
    (release : W → W) (w : W) :
    (({ ctx with image := ImageRef.image (some release) } : RenderContext W).destroy w).error
      = some JSError.referenceError ∧
    (destroyTwice ({ ctx with image := ImageRef.image (some release) } : RenderContext W)
      w).error = some JSError.referenceError ∧
    (destroyTwice ({ ctx with image := ImageRef.image (some release) } : RenderContext W)
      w).world = w ∧
    (destroyTwice ({ ctx with image := ImageRef.image (some release) } : RenderContext W)
      w).ctx.image.present = true ∧
    (∀ img : ImageRef W,
      img = ImageRef.null ∨ img = ImageRef.undefined ∨ img = ImageRef.image none →
      (destroyTwice ({ ctx with image := img } : RenderContext W) w).error = none ∧
      (destroyTwice ({ ctx with image := img } : RenderContext W) w).world
        = runAll ctx.onDestroys (runAll ctx.onDestroys w) ∧
      (destroyTwice ({ ctx with image := img } : RenderContext W) w).ctx.onDestroys
        = ctx.onDestroys ∧
      (destroyTwice ({ ctx with image := img } : RenderContext W) w).ctx.image
        = ImageRef.undefined) ∧
    (∀ (s : JSObject) (ids log : List ι), ∃ ctx0 : RenderContext (List ι),
      RenderContext.new (JSArg.obj s) = Except.ok ctx0 ∧
      (destroyTwice (registerAll ctx0 (ids.map logHook)) log).world = log ++ ids ++ ids ∧
      (destroyTwice (registerAll ctx0 (ids.map logHook)) log).error = none) := by
  refine ⟨rfl, rfl, rfl, rfl, ?_, ?_⟩
  · intro img himg
    rcases himg with h | h | h <;> subst h <;> exact ⟨rfl, rfl, rfl, rfl⟩
  · intro s ids log
    refine ⟨_, new_obj s, ?_, ?_⟩
    · simp only [destroyTwice, destroy, registerAll_onDestroys, registerAll_image,
        List.nil_append, foldl_logHook]
    · simp only [destroyTwice, destroy, registerAll_image]

/-- Two failing calls on a concrete context: the image has a texture and the
hook "A" is registered; the log of calls stays empty. -/
theorem destroy_twice_on_textured_context :
    (destroyTwice texturedContext []).error = some JSError.referenceError ∧
    (destroyTwice texturedContext []).world = [] ∧
    (destroyTwice texturedContext []).ctx.image.present = true :=
  ⟨rfl, rfl, rfl⟩

/-! ## The missing `break` of `getIconSize` -/

/-- C19: with `tickStyle` "default", `getIconSize` is the inner switch of the
case "default" alone, although control runs on into the case "hypixel" when
that switch returns nothing: for a recognised kind the result is
(16 * s / 8, 16 * s / 8), computed in doubles from the iconScale s, and for
every other kind it is `undefined`, because the switch of the case "hypixel",
which is then reached, returns nothing for that kind either. -/
theorem default_fallthrough_never_yields_hypixel_size (ctx : RenderContext W) (type : JSVal)
    (hstyle : ctx.tickStyle = JSVal.str "default") :
    ctx.getIconSize type = ctx.iconSizeDefault type ∧
    ((∃ k ∈ iconKinds, type = JSVal.str k) →
      ctx.getIconSize type
        = some (F64.div (F64.mul (F64.fin 16) (toDouble ctx.iconScale)) (F64.fin 8),
                F64.div (F64.mul (F64.fin 16) (toDouble ctx.iconScale)) (F64.fin 8))) ∧
    ((∀ k ∈ iconKinds, type ≠ JSVal.str k) →
      ctx.getIconSize type = none ∧ ctx.iconSizeHypixel type = none) ∧
    (ctx.iconSizeDefault type = none → ctx.iconSizeHypixel type = none) := by
  have hrec : (∃ k ∈ iconKinds, type = JSVal.str k) →
      ctx.getIconSize type = some (ctx.iconDim 16, ctx.iconDim 16) := by
    rintro ⟨k, hk, rfl⟩
    simp only [iconKinds, List.mem_cons, List.mem_singleton, List.not_mem_nil, or_false] at hk
    rcases hk with h | h | h | h <;> subst h <;> simp [getIconSize, hstyle, iconSizeDefault]
  have hother : (∀ k ∈ iconKinds, type ≠ JSVal.str k) → ctx.getIconSize type = none :=
    getIconSize_none_of_unrecognised ctx type
  have hcases : (∃ k ∈ iconKinds, type = JSVal.str k) ∨ (∀ k ∈ iconKinds, type ≠ JSVal.str k) := by
    by_cases h : ∃ k ∈ iconKinds, type = JSVal.str k
    · exact Or.inl h
    · right
      intro k hk heq
      exact h ⟨k, hk, heq⟩
  have hdef : (∃ k ∈ iconKinds, type = JSVal.str k) →
      ctx.iconSizeDefault type = some (ctx.iconDim 16, ctx.iconDim 16) := by
    rintro ⟨k, hk, rfl⟩
    simp only [iconKinds, List.mem_cons, List.mem_singleton, List.not_mem_nil, or_false] at hk
    rcases hk with h | h | h | h <;> subst h <;> simp [iconSizeDefault]
  refine ⟨?_, hrec, ?_, ?_⟩
  · rcases hcases with h | h
    · rw [hrec h, hdef h]
    · rw [hother h, (iconSize_none_of_unrecognised ctx type h).1]
  · intro h
    exact ⟨hother h, (iconSize_none_of_unrecognised ctx type h).2⟩
  · intro hnone
    rcases hcases with h | h
    · rw [hdef h] at hnone
      exact absurd hnone (by simp)
    · exact (iconSize_none_of_unrecognised ctx type h).2

/-- The kinds "failedRoom" and "star" on a concrete context of tick style
"default" and iconScale 8. -/
theorem default_fallthrough_never_yields_hypixel_size_witness :
    legalContext.tickStyle = JSVal.str "default" ∧
    legalContext.getIconSize (JSVal.str "failedRoom")
      = legalContext.iconSizeDefault (JSVal.str "failedRoom") ∧
    legalContext.getIconSize (JSVal.str "star")
      = legalContext.iconSizeDefault (JSVal.str "star") :=
  ⟨rfl,
   (default_fallthrough_never_yields_hypixel_size legalContext (JSVal.str "failedRoom") rfl).1,
   (default_fallthrough_never_yields_hypixel_size legalContext (JSVal.str "star") rfl).1⟩

/-! ## Image size -/

theorem getImageSize_of_geometry (ctx : RenderContext W) (floor : JSVal) (bs rg : ℚ)
    (hbs : ctx.blockSize = some bs) (hrg : ctx.roomGap = JSVal.num rg) :
    ctx.getImageSize floor
      = F64.add
          (F64.add (F64.mul (F64.fin 2) (F64.fin ctx.paddingLeft))
            (F64.mul (F64.fin 6) (F64.fin bs)))
          (F64.fin rg) := by
  unfold getImageSize
  rw [hbs, hrg, F64.mul_swap (F64.fin ctx.paddingLeft), F64.mul_swap (F64.ofOption (some bs))]
  rfl

theorem imageSize_value (bs rg : ℕ) (hbs : 0 < bs) (hrg : 0 < rg)
    (hbound : bs * 6 + rg < 2 ^ 53) :
    F64.add
        (F64.add (F64.mul (F64.fin 2) (F64.fin 0)) (F64.mul (F64.fin 6) (F64.fin (bs : ℚ))))
        (F64.fin (rg : ℚ))
      = F64.fin ((bs * 6 + rg : ℕ) : ℚ) := by
  have m0 : F64.mul (F64.fin 2) (F64.fin 0) = F64.fin 0 := by
    rw [F64.mul_swap]
    exact F64.mul_zero_left 2 (by norm_num)
  have m1 : F64.mul (F64.fin 6) (F64.fin (bs : ℚ)) = F64.fin ((bs * 6 : ℕ) : ℚ) := by
    rw [F64.mul_swap]
    have h := F64.mul_nat bs 6 (by omega) (by omega)
    simpa using h
  have a1 : F64.add (F64.fin 0) (F64.fin ((bs * 6 : ℕ) : ℚ)) = F64.fin ((bs * 6 : ℕ) : ℚ) := by
    have h := F64.add_nat 0 (bs * 6) (by omega) (by omega)
    simpa using h
  have a2 : F64.add (F64.fin ((bs * 6 : ℕ) : ℚ)) (F64.fin (rg : ℚ))
      = F64.fin ((bs * 6 + rg : ℕ) : ℚ) :=
    F64.add_nat (bs * 6) rg hrg hbound
  rw [m0, m1, a1, a2]

/-- C20: for a context with a supported map style and every argument `floor`,
`getImageSize(floor)` is 2 * paddingLeft + 6 * blockSize + roomGap, computed
in doubles, and does not depend on `floor`; for a context just constructed,
whose paddingLeft is 0, it is 200 under "legalmap" and 186 under "hypixelmap"
and under "teniosmap". -/
theorem getImageSize_formula (ctx : RenderContext W) (floor : JSVal)
    (hstyle : ctx.mapStyle = JSVal.str "legalmap" ∨ ctx.mapStyle = JSVal.str "hypixelmap" ∨
      ctx.mapStyle = JSVal.str "teniosmap") :
    (∃ bs rg : ℚ, ctx.blockSize = some bs ∧ ctx.roomGap = JSVal.num rg ∧
      ctx.getImageSize floor
        = F64.add
            (F64.add (F64.mul (F64.fin 2) (F64.fin ctx.paddingLeft))
              (F64.mul (F64.fin 6) (F64.fin bs)))
            (F64.fin rg)) ∧
    (∀ floor2 : JSVal, ctx.getImageSize floor2 = ctx.getImageSize floor) ∧
    (∀ s : JSObject, ∃ ctx0 : RenderContext W,
      RenderContext.new (JSArg.obj s) = Except.ok ctx0 ∧
      ctx0.paddingLeft = 0 ∧
      (ctx0.mapStyle = JSVal.str "legalmap" → ctx0.getImageSize floor = F64.fin 200) ∧
      (ctx0.mapStyle = JSVal.str "hypixelmap" → ctx0.getImageSize floor = F64.fin 186) ∧
      (ctx0.mapStyle = JSVal.str "teniosmap" → ctx0.getImageSize floor = F64.fin 186)) := by
  have geo : ∀ c : RenderContext W,
      (c.mapStyle = JSVal.str "legalmap" → c.blockSize = some 32 ∧ c.roomGap = JSVal.num 8) ∧
      (c.mapStyle = JSVal.str "hypixelmap" → c.blockSize = some 30 ∧ c.roomGap = JSVal.num 6) ∧
      (c.mapStyle = JSVal.str "teniosmap" → c.blockSize = some 30 ∧ c.roomGap = JSVal.num 6) := by
    intro c
    refine ⟨?_, ?_, ?_⟩ <;> intro h <;>
      simp [blockSize, roomSize, roomGap, geometryOperand, numAdd, h] <;> norm_num
  have v200 := imageSize_value 32 8 (by norm_num) (by norm_num) (by norm_num)
  have v186 := imageSize_value 30 6 (by norm_num) (by norm_num) (by norm_num)
  norm_num at v200 v186
  refine ⟨?_, fun _ => rfl, ?_⟩
  · rcases hstyle with h | h | h
    · exact ⟨32, 8, ((geo ctx).1 h).1, ((geo ctx).1 h).2,
        getImageSize_of_geometry ctx floor 32 8 ((geo ctx).1 h).1 ((geo ctx).1 h).2⟩
    · exact ⟨30, 6, ((geo ctx).2.1 h).1, ((geo ctx).2.1 h).2,
        getImageSize_of_geometry ctx floor 30 6 ((geo ctx).2.1 h).1 ((geo ctx).2.1 h).2⟩
    · exact ⟨30, 6, ((geo ctx).2.2 h).1, ((geo ctx).2.2 h).2,
        getImageSize_of_geometry ctx floor 30 6 ((geo ctx).2.2 h).1 ((geo ctx).2.2 h).2⟩
  · intro s
    refine ⟨_, new_obj s, rfl, ?_, ?_, ?_⟩
    · intro h
      rw [getImageSize_of_geometry _ floor 32 8 ((geo _).1 h).1 ((geo _).1 h).2]
      exact v200
    · intro h
      rw [getImageSize_of_geometry _ floor 30 6 ((geo _).2.1 h).1 ((geo _).2.1 h).2]
      exact v186
    · intro h
      rw [getImageSize_of_geometry _ floor 30 6 ((geo _).2.2 h).1 ((geo _).2.2 h).2]
      exact v186

/-- The image size on a concrete context of style "hypixelmap" with no
padding. -/
theorem getImageSize_formula_witness :
    hypixelContext.mapStyle = JSVal.str "hypixelmap" ∧
    ∃ bs rg : ℚ, hypixelContext.blockSize = some bs ∧
      hypixelContext.roomGap = JSVal.num rg ∧
      hypixelContext.getImageSize JSVal.undefined
        = F64.add
            (F64.add (F64.mul (F64.fin 2) (F64.fin hypixelContext.paddingLeft))
              (F64.mul (F64.fin 6) (F64.fin bs)))
            (F64.fin rg) :=
  ⟨rfl, (getImageSize_formula hypixelContext JSVal.undefined (Or.inr (Or.inl rfl))).1⟩

end RenderContext

end BetterMap
